import Mathlib

/-!
# github-lookup: the Bubble Tea state machine of `main.go`

A shallow embedding of `src/main.go`: the data (`CombinedData`), the
application `model`, `initialModel`, `fetch`, `searchGithub`, `model.Update`
and `model.View`, followed by theorems about them.

External collaborators are modelled as follows.

* `tea.Msg` is the closed type `Msg` of the four message kinds `Update`
  switches on.  A key message is one of a fixed alphabet of key presses
  (`KeyMsg`); `KeyMsg.String` is the name `Update` compares with `"enter"` and
  `"ctrl+c"`.
* `textinput.Model` (bubbles) is modelled by its rune buffer, cursor position,
  focus flag and character limit; the cursor animation is reduced to the blink
  command it emits when the cursor moves.
* lipgloss styles and `textinput.Model.View` are parameters (`Styles`): the
  theorems hold for every rendering of the styles.
* The network is a parameter of `fetch`: a function from a URL to the outcome
  of the GET request.  A URL that `http.NewRequest` rejects makes `fetch`
  panic on the nil request; `fetch` and `searchGithub` are `none` then.
  `searchGithubLogged` is `searchGithub` with the URLs it requests recorded.
* `encoding/json` is modelled on parsed JSON values: field matching by exact
  name, then ignoring case; a type error is saved and decoding goes on.
-/

namespace GithubLookup

/-! ## Data -/

/-- The anonymous struct type of `CombinedData.User`. -/
structure User where
  Login : String
  Name : String
  Bio : String
  Location : String
  PublicRepos : Int
  Followers : Int
  deriving DecidableEq

/-- The anonymous struct type of the elements of `CombinedData.Repos`. -/
structure Repo where
  Name : String
  Description : String
  Stars : Int
  deriving DecidableEq

/-- `type CombinedData struct`. -/
structure CombinedData where
  User : User
  Repos : List Repo
  deriving DecidableEq

/-- The zero value of the `User` struct (`var data CombinedData`). -/
def User.zero : User :=
  { Login := "", Name := "", Bio := "", Location := "", PublicRepos := 0, Followers := 0 }

/-- The zero value of a `Repos` element. -/
def Repo.zero : Repo := { Name := "", Description := "", Stars := 0 }

/-- The zero value of `CombinedData`. -/
def CombinedData.zero : CombinedData := { User := User.zero, Repos := [] }

/-- A non-nil Go `error` value, reduced to the text its `Error()` method returns. -/
structure GoError where
  Error : String
  deriving DecidableEq

/-! ## Messages -/

/-- The key presses delivered as `tea.KeyMsg`: a typed character (`KeyRunes`
with one rune) or one of the named keys. -/
inductive KeyMsg where
  | KeyRunes (r : Char)
  | KeyEnter
  | KeyCtrlC
  | KeyBackspace
  | KeyDelete
  | KeyLeft
  | KeyRight
  | KeyHome
  | KeyEnd
  | KeyEsc
  deriving DecidableEq

/-- `tea.KeyMsg.String()`: the runes of a character key, the name of a named key. -/
def KeyMsg.String : KeyMsg → String
  | .KeyRunes r => String.mk [r]
  | .KeyEnter => "enter"
  | .KeyCtrlC => "ctrl+c"
  | .KeyBackspace => "backspace"
  | .KeyDelete => "delete"
  | .KeyLeft => "left"
  | .KeyRight => "right"
  | .KeyHome => "home"
  | .KeyEnd => "end"
  | .KeyEsc => "esc"

/-- The values of `tea.Msg` that `Update` distinguishes in its type switch. -/
inductive Msg where
  | KeyMsg (k : KeyMsg)
  | WindowSizeMsg (Width Height : Int)
  | CombinedData (d : CombinedData)
  | error (e : GoError)
  deriving DecidableEq

/-! ## The text input component (`bubbles/textinput`) -/

namespace textinput

/-- The command a text input hands back: restart the cursor blink. -/
inductive Cmd where
  | Blink
  deriving DecidableEq

/-- The part of `textinput.Model` the program observes. -/
structure Model where
  Placeholder : String
  CharLimit : Int
  Width : Int
  value : List Char
  focus : Bool
  pos : Nat
  deriving DecidableEq

/-- `textinput.New()`: empty, unfocused, no character limit. -/
def New : Model :=
  { Placeholder := "", CharLimit := 0, Width := 0, value := [], focus := false, pos := 0 }

/-- `Focus()`. -/
def Model.Focus (m : Model) : Model := { m with focus := true }

/-- `Value()`: the buffer as a string. -/
def Model.Value (m : Model) : String := String.mk m.value

/-- `SetCursor(pos)`: the position is clamped to the buffer. -/
def Model.SetCursor (m : Model) (pos : Nat) : Model :=
  { m with pos := min pos m.value.length }

/-- Unicode control characters (category Cc). -/
def isControl (c : Char) : Bool :=
  c.toNat < 32 || (127 ≤ c.toNat && c.toNat < 160)

/-- The rune sanitizer of the text input: the replacement rune is skipped,
newlines and tabs become a space, other control characters are skipped. -/
def sanitize : List Char → List Char
  | [] => []
  | r :: rs =>
    if r.toNat = 65533 then sanitize rs
    else if r.toNat = 13 ∨ r.toNat = 10 then Char.ofNat 32 :: sanitize rs
    else if r.toNat = 9 then Char.ofNat 32 :: sanitize rs
    else if isControl r then sanitize rs
    else r :: sanitize rs

/-- `setValueInternal`: store the runes, cut to the character limit, and keep
the cursor inside the buffer. -/
def Model.setValueInternal (m : Model) (runes : List Char) : Model :=
  let empty := m.value.length == 0
  let m1 : Model :=
    if 0 < m.CharLimit ∧ m.CharLimit < (runes.length : Int)
    then { m with value := runes.take m.CharLimit.toNat }
    else { m with value := runes }
  if (m1.pos = 0 ∧ empty = true) ∨ m1.value.length < m1.pos
  then m1.SetCursor m1.value.length
  else m1

/-- `SetValue(s)`. -/
def Model.SetValue (m : Model) (s : String) : Model :=
  m.setValueInternal (sanitize s.data)

/-- `insertRunesFromUserInput`: insert the sanitized runes at the cursor, as
many as the character limit leaves room for. -/
def Model.insertRunesFromUserInput (m : Model) (v : List Char) : Model :=
  let paste := sanitize v
  if 0 < m.CharLimit ∧ m.CharLimit - (m.value.length : Int) ≤ 0 then m
  else
    let paste :=
      if 0 < m.CharLimit ∧ m.CharLimit - (m.value.length : Int) < (paste.length : Int)
      then paste.take (m.CharLimit - (m.value.length : Int)).toNat
      else paste
    let head := m.value.take m.pos ++ paste
    let tail := m.value.drop m.pos
    ({ m with pos := m.pos + paste.length }).setValueInternal (head ++ tail)

/-- The effect of a message on the buffer and cursor of a focused input. -/
def Model.handle (m : Model) : Msg → Model
  | .KeyMsg .KeyBackspace =>
    if 0 < m.value.length then
      let m1 := { m with value := m.value.take (m.pos - 1) ++ m.value.drop m.pos }
      if 0 < m.pos then m1.SetCursor (m.pos - 1) else m1
    else m
  | .KeyMsg .KeyDelete =>
    if 0 < m.value.length ∧ m.pos < m.value.length then
      { m with value := m.value.take m.pos ++ m.value.drop (m.pos + 1) }
    else m
  | .KeyMsg .KeyLeft => if 0 < m.pos then m.SetCursor (m.pos - 1) else m
  | .KeyMsg .KeyRight => if m.pos < m.value.length then m.SetCursor (m.pos + 1) else m
  | .KeyMsg .KeyHome => m.SetCursor 0
  | .KeyMsg .KeyEnd => m.SetCursor m.value.length
  | .KeyMsg (.KeyRunes r) => m.insertRunesFromUserInput [r]
  | .KeyMsg _ => m.insertRunesFromUserInput []
  | _ => m

/-- `Update(msg)`: an unfocused input ignores every message; a focused one
handles it and asks for a cursor blink when the cursor has moved. -/
def Model.Update (m : Model) (msg : Msg) : Model × Option Cmd :=
  if m.focus = false then (m, none)
  else
    let m1 := m.handle msg
    (m1, if m.pos ≠ m1.pos then some Cmd.Blink else none)

end textinput

/-! ## Model and commands -/

/-- The values of `tea.Cmd` the program produces: `tea.Quit`, the closure
returned by `searchGithub(user)`, and the commands of the text input. -/
inductive Cmd where
  | Quit
  | searchGithub (user : String)
  | textinput (c : textinput.Cmd)
  deriving DecidableEq

/-- `type model struct`; `data` is `none` for a nil pointer, `err` is `none`
for a nil error. -/
structure model where
  input : textinput.Model
  data : Option CombinedData
  loading : Bool
  err : Option GoError
  width : Int
  deriving DecidableEq

/-- `initialModel()`. -/
def initialModel : model :=
  let ti := textinput.New
  let ti := { ti with Placeholder := "GitHub username...", CharLimit := 156, Width := 30 }
  let ti := ti.Focus
  { input := ti, data := none, loading := false, err := none, width := 80 }

/-- Step 3 of `Update` ("Text Input Handling"): the message goes to the text
input only while `data` is nil. -/
def model.textInputHandling (m : model) (msg : Msg) : model × Option Cmd :=
  if m.data = none then
    let r := m.input.Update msg
    ({ m with input := r.1 }, r.2.map Cmd.textinput)
  else (m, none)

/-- `func (m model) Update(msg tea.Msg) (tea.Model, tea.Cmd)`. -/
def model.Update (m : model) (msg : Msg) : model × Option Cmd :=
  match msg with
  | .KeyMsg k =>
    -- 1. global quit check
    if k.String = "ctrl+c" then (m, some Cmd.Quit)
    -- 2. normal event handling
    else if k.String = "enter" then
      if m.data ≠ none then
        ({ m with data := none, input := m.input.SetValue "" }, none)
      else
        ({ m with loading := true, err := none }, some (Cmd.searchGithub m.input.Value))
    else m.textInputHandling (.KeyMsg k)
  | .WindowSizeMsg w h => ({ m with width := w }).textInputHandling (.WindowSizeMsg w h)
  | .CombinedData d =>
    ({ m with loading := false, data := some d }).textInputHandling (.CombinedData d)
  | .error e => ({ m with loading := false, err := some e }).textInputHandling (.error e)

/-! ## JSON decoding (`encoding/json`) -/

/-- A parsed JSON value.  `int` is a number written as an integer literal,
`real` any other number, with its text; arrays and objects hold their members
in order. -/
inductive JSON where
  | null
  | bool (b : Bool)
  | int (n : Int)
  | real (lit : String)
  | str (s : String)
  | arr (elems : List JSON)
  | obj (members : List (String × JSON))

/-- The JSON kind named in a decode error. -/
def JSON.kind : JSON → String
  | .null => "null"
  | .bool _ => "bool"
  | .int _ => "number"
  | .real _ => "number"
  | .str _ => "string"
  | .arr _ => "array"
  | .obj _ => "object"

/-- The decoder remembers the first error only (`saveError`). -/
def saveError (saved new : Option GoError) : Option GoError :=
  match saved with
  | some e => some e
  | none => new

/-- The text of an `UnmarshalTypeError` raised while decoding the field with
JSON name `field` of one of the (anonymous) structs: it names the JSON value,
the field and the Go type. -/
def fieldTypeError (value field type : String) : GoError :=
  ⟨"json: cannot unmarshal " ++ value ++ " into Go struct field ." ++ field ++
    " of type " ++ type⟩

/-- The text of an `UnmarshalTypeError` raised outside a struct field. -/
def valueTypeError (value type : String) : GoError :=
  ⟨"json: cannot unmarshal " ++ value ++ " into Go value of type " ++ type⟩

/-- Decode a JSON value into the Go `string` field named `field`: a string is
stored, `null` leaves the field as it is, anything else is a type error and
leaves it as it is. -/
def decodeString (field : String) (v : JSON) (old : String) : String × Option GoError :=
  match v with
  | .str s => (s, none)
  | .null => (old, none)
  | _ => (old, some (fieldTypeError v.kind field "string"))

/-- Decode a JSON value into the Go `int` (64 bits) field named `field`: an
integer literal in range is stored, `null` leaves the field as it is, anything
else is a type error, which for a number names the literal. -/
def decodeInt (field : String) (v : JSON) (old : Int) : Int × Option GoError :=
  match v with
  | .int n =>
    if -(2 : Int) ^ 63 ≤ n ∧ n < (2 : Int) ^ 63 then (n, none)
    else (old, some (fieldTypeError ("number " ++ toString n) field "int"))
  | .real lit => (old, some (fieldTypeError ("number " ++ lit) field "int"))
  | .null => (old, none)
  | _ => (old, some (fieldTypeError v.kind field "int"))

/-- Case folding of one character against the ASCII field names of the
program: the letters `A` to `Z` go to lower case, and so do the two other
characters that Unicode simple folding identifies with an ASCII letter, the
long s (U+017F) with `s` and the Kelvin sign (U+212A) with `k`. -/
def foldChar (c : Char) : Char :=
  if c.toNat = 383 then 's' else if c.toNat = 8490 then 'k' else c.toLower

/-- Case folding of a name, character by character. -/
def foldName (s : String) : List Char := s.data.map foldChar

/-- The field-matching rule of `encoding/json`: the field whose JSON name is
exactly the key, else the first one equal to it ignoring case. -/
def findField {φ : Type} (fields : List (String × φ)) (key : String) : Option φ :=
  match fields.find? (fun f => f.1 == key) with
  | some f => some f.2
  | none =>
    match fields.find? (fun f => foldName f.1 == foldName key) with
    | some f => some f.2
    | none => none

/-- The fields of the `User` struct. -/
inductive UserField where
  | Login | Name | Bio | Location | PublicRepos | Followers
  deriving DecidableEq

/-- The JSON names of the `User` fields: none has a tag, so each is the Go
field name. -/
def userFields : List (String × UserField) :=
  [("Login", .Login), ("Name", .Name), ("Bio", .Bio), ("Location", .Location),
   ("PublicRepos", .PublicRepos), ("Followers", .Followers)]

/-- Decode a value into one field of a `User`. -/
def User.setField (u : User) (f : UserField) (v : JSON) : User × Option GoError :=
  match f with
  | .Login => let r := decodeString "Login" v u.Login; ({ u with Login := r.1 }, r.2)
  | .Name => let r := decodeString "Name" v u.Name; ({ u with Name := r.1 }, r.2)
  | .Bio => let r := decodeString "Bio" v u.Bio; ({ u with Bio := r.1 }, r.2)
  | .Location =>
    let r := decodeString "Location" v u.Location; ({ u with Location := r.1 }, r.2)
  | .PublicRepos =>
    let r := decodeInt "PublicRepos" v u.PublicRepos; ({ u with PublicRepos := r.1 }, r.2)
  | .Followers =>
    let r := decodeInt "Followers" v u.Followers; ({ u with Followers := r.1 }, r.2)

/-- Decode the members of an object into a `User`, in order: a key that
matches no field is skipped, a later duplicate overwrites. -/
def decodeUserMembers : List (String × JSON) → User × Option GoError → User × Option GoError
  | [], acc => acc
  | (key, v) :: rest, (u, saved) =>
    match findField userFields key with
    | some f =>
      let r := u.setField f v
      decodeUserMembers rest (r.1, saveError saved r.2)
    | none => decodeUserMembers rest (u, saved)

/-- The Go type of `data.User`, as a type error prints it. -/
def userType : String :=
  "struct \x7b Login string; Name string; Bio string; Location string; " ++
    "PublicRepos int; Followers int \x7d"

/-- The Go type of an element of `data.Repos`, as a type error prints it. -/
def repoType : String :=
  "struct \x7b Name string; Description string; " ++
    "Stars int \"json:\\\"stargazers_count\\\"\" \x7d"

/-- `Decode(&data.User)`: the target struct after decoding and the error returned. -/
def decodeUser (j : JSON) (u : User) : User × Option GoError :=
  match j with
  | .obj members => decodeUserMembers members (u, none)
  | .null => (u, none)
  | _ => (u, some (valueTypeError j.kind userType))

/-- The fields of a `Repos` element. -/
inductive RepoField where
  | Name | Description | Stars
  deriving DecidableEq

/-- The JSON names of the element fields: `Stars` carries the tag
`json:"stargazers_count"`. -/
def repoFields : List (String × RepoField) :=
  [("Name", .Name), ("Description", .Description), ("stargazers_count", .Stars)]

/-- Decode a value into one field of a `Repos` element. -/
def Repo.setField (r : Repo) (f : RepoField) (v : JSON) : Repo × Option GoError :=
  match f with
  | .Name => let x := decodeString "Name" v r.Name; ({ r with Name := x.1 }, x.2)
  | .Description =>
    let x := decodeString "Description" v r.Description; ({ r with Description := x.1 }, x.2)
  | .Stars =>
    let x := decodeInt "stargazers_count" v r.Stars; ({ r with Stars := x.1 }, x.2)

/-- Decode the members of an object into a `Repos` element, in order. -/
def decodeRepoMembers : List (String × JSON) → Repo × Option GoError → Repo × Option GoError
  | [], acc => acc
  | (key, v) :: rest, (r, saved) =>
    match findField repoFields key with
    | some f =>
      let x := r.setField f v
      decodeRepoMembers rest (x.1, saveError saved x.2)
    | none => decodeRepoMembers rest (r, saved)

/-- Decode one array element into a fresh `Repos` element. -/
def decodeRepo (j : JSON) : Repo × Option GoError :=
  match j with
  | .obj members => decodeRepoMembers members (Repo.zero, none)
  | .null => (Repo.zero, none)
  | _ => (Repo.zero, some (valueTypeError j.kind repoType))

/-- Decode the elements of an array, appending each decoded element; a type
error in one element is saved and the decoding goes on. -/
def decodeRepoElems : List JSON → List Repo × Option GoError
  | [] => ([], none)
  | j :: rest =>
    let x := decodeRepo j
    let xs := decodeRepoElems rest
    (x.1 :: xs.1, saveError x.2 xs.2)

/-- `Decode(&data.Repos)` on the nil slice `searchGithub` passes: an array
replaces the slice, `null` makes it nil, anything else is a type error and
leaves it as it is. -/
def decodeRepos (j : JSON) (old : List Repo) : List Repo × Option GoError :=
  match j with
  | .arr elems => decodeRepoElems elems
  | .null => ([], none)
  | _ => (old, some (valueTypeError j.kind ("[]" ++ repoType)))

/-! ## Helpers and commands -/

/-- The outcome of `http.DefaultClient.Do(req)`: a transport error, or a
response with its status code and the first JSON value of its body, the one
`Decode` reads (`none` when the body does not start with a well-formed JSON
value). -/
inductive HttpResult where
  | transportError (e : GoError)
  | response (StatusCode : Int) (body : Option JSON)

/-- ASCII control bytes, which `url.Parse` rejects. -/
def isCTLByte (c : Char) : Bool := c.toNat < 32 || c.toNat = 127

/-- Hexadecimal digits. -/
def ishex (c : Char) : Bool :=
  (48 ≤ c.toNat && c.toNat ≤ 57) || (97 ≤ c.toNat && c.toNat ≤ 102) ||
    (65 ≤ c.toNat && c.toNat ≤ 70)

/-- The check `unescape` makes on a path or fragment: every `%` is followed by
two hexadecimal digits.  The number is how many digits are still due. -/
def validEscapes : Nat → List Char → Bool
  | 0, [] => true
  | _ + 1, [] => false
  | 0, c :: rest => if c = '%' then validEscapes 2 rest else validEscapes 0 rest
  | n + 1, c :: rest => ishex c && validEscapes n rest

/-- Whether `url.Parse`, and with it `http.NewRequest("GET", url, nil)`,
accepts a URL of the program, which is `https://api.github.com/users/`
followed by text: the part before the first `#` has no control byte, and the
path (that part up to the first `?`) and the fragment (what follows the first
`#`) have valid escapes; the query is not checked. -/
def urlParses (url : String) : Bool :=
  let u := url.data.takeWhile (fun c => c != '#')
  let frag := (url.data.dropWhile (fun c => c != '#')).drop 1
  let path := u.takeWhile (fun c => c != '?')
  !u.any isCTLByte && validEscapes 0 path && validEscapes 0 frag

/-- `func fetch(url string, target interface{}) error`, for a target of type
`τ` decoded by `decode`: the target after the call and the error returned.
The result is `none` when the call does not return: the error of
`http.NewRequest` is discarded, so for a URL that does not parse `req` is nil
and `req.Header.Set` panics before any request is sent. -/
def fetch {τ : Type} (net : String → HttpResult) (decode : JSON → τ → τ × Option GoError)
    (url : String) (target : τ) : Option (τ × Option GoError) :=
  if urlParses url = false then none
  else
    match net url with
    | .transportError e => some (target, some e)
    | .response StatusCode body =>
      if StatusCode ≠ 200 then some (target, some ⟨"API error: " ++ toString StatusCode⟩)
      else
        match body with
        | none => some (target, some ⟨"invalid character looking for beginning of value"⟩)
        | some j => some (decode j target)

/-- The message produced by running the closure `searchGithub(user)` returns;
`none` when the closure panics in `fetch` and delivers no message. -/
def searchGithub (net : String → HttpResult) (user : String) : Option Msg :=
  let data := CombinedData.zero
  match fetch net decodeUser ("https://api.github.com/users/" ++ user) data.User with
  | none => none
  | some (_, some err) => some (Msg.error err)
  | some (u, none) =>
    let data := { data with User := u }
    match fetch net decodeRepos
      ("https://api.github.com/users/" ++ user ++ "/repos?sort=updated&per_page=10")
      data.Repos with
    | none => none
    | some r => some (Msg.CombinedData { data with Repos := r.1 })

/-! ## View -/

/-- A lipgloss style: how it renders a string, given the width set on it. -/
structure Style where
  render : Option Int → String → String
  width : Option Int

/-- `Width(w)`: the same style with the width set. -/
def Style.Width (s : Style) (w : Int) : Style := { s with width := some w }

/-- `Render(str)`. -/
def Style.Render (s : Style) (str : String) : String := s.render s.width str

/-- The styles of the `var (...)` block, `lipgloss.NewStyle()`, and the
rendering of the text input (`textinput.Model.View`). -/
structure Styles where
  titleStyle : Style
  subStyle : Style
  infoStyle : Style
  repoStyle : Style
  descStyle : Style
  errStyle : Style
  NewStyle : Style
  inputView : textinput.Model → String

/-- The closure `kv` of `View`. -/
def kv (S : Styles) (k v : String) : String :=
  S.subStyle.Render (k ++ ":") ++ " " ++ S.infoStyle.Render v ++ "\n"

/-- The body of the `for _, r := range d.Repos` loop: what one repository
appends to the builder. -/
def repoBlock (S : Styles) (width : Int) (r : Repo) : String :=
  let line := S.repoStyle.Render (r.Name ++ " (★ " ++ toString r.Stars ++ ")") ++ "\n"
  let desc := r.Description
  let desc := if desc = "" then "No description." else desc
  line ++ ((S.descStyle.Width (width - 4)).Render desc ++ "\n\n")

/-- The "Result View" branch of `View`: the contents of the builder `b`. -/
def resultView (S : Styles) (width : Int) (d : CombinedData) : String :=
  let b := ""
  let b := b ++ ("\n" ++ S.titleStyle.Render "USER PROFILE" ++ "\n")
  let b := b ++ kv S "Name" d.User.Name
  let b := b ++ kv S "Github" ("@" ++ d.User.Login)
  let b := if d.User.Location ≠ "" then b ++ kv S "Location" d.User.Location else b
  let b := b ++ kv S "Stats"
    (toString d.User.PublicRepos ++ " Repos, " ++ toString d.User.Followers ++ " Followers")
  let b :=
    if d.User.Bio ≠ "" then
      (b ++ (S.subStyle.Render "Bio:" ++ "\n")) ++
        ((S.NewStyle.Width (width - 4)).Render d.User.Bio ++ "\n")
    else b
  let b := b ++ ("\n" ++ S.titleStyle.Render "LATEST REPOSITORIES" ++ "\n")
  let b := d.Repos.foldl (fun b r => b ++ repoBlock S width r) b
  b ++ S.subStyle.Render "(Enter to search again, Ctrl+C to quit)"

/-- `func (m model) View() string`. -/
def model.View (S : Styles) (m : model) : String :=
  if m.loading then "\nSearching for " ++ m.input.Value ++ "...\n"
  else
    match m.err with
    | some e => "\n" ++ S.errStyle.Render e.Error ++ "\n(Enter to try again)\n"
    | none =>
      match m.data with
      | some d => resultView S m.width d
      | none =>
        "\n" ++ S.titleStyle.Render "GITHUB SEARCH" ++ "\n\n" ++ S.inputView m.input ++
          "\n\n(Enter to search, Ctrl+C to quit)\n"

/-! ## States, runs and fixtures -/

/-- Input state: not loading, no error, no data. -/
abbrev model.isInput (m : model) : Prop := m.loading = false ∧ m.err = none ∧ m.data = none

/-- Loading state: loading, no error, no data. -/
abbrev model.isLoading (m : model) : Prop := m.loading = true ∧ m.err = none ∧ m.data = none

/-- Result state: data present, not loading, no error. -/
abbrev model.isResult (m : model) : Prop := m.data ≠ none ∧ m.loading = false ∧ m.err = none

/-- Error state: error present, not loading, no data. -/
abbrev model.isError (m : model) : Prop := m.err ≠ none ∧ m.loading = false ∧ m.data = none

/-- The confirm key as a message. -/
def enter : Msg := .KeyMsg .KeyEnter

/-- The key messages for typing the characters of a string, in order. -/
def typed (s : String) : List Msg := s.data.map (fun c => Msg.KeyMsg (.KeyRunes c))

/-- Deliver a sequence of messages to `Update`, in order, from a model. -/
def run (m : model) (msgs : List Msg) : model :=
  msgs.foldl (fun m msg => (m.Update msg).1) m

/-- The states the program can be in: `initialModel` followed by any finite
sequence of messages. -/
def Reachable (m : model) : Prop := ∃ msgs : List Msg, run initialModel msgs = m

/-- The number of queries started and not yet completed after a sequence of
messages, `n` being the number before it: a step whose command is a
`searchGithub` closure starts one, a `CombinedData` or `error` message is the
completion of one. -/
def pending (m : model) (n : Nat) : List Msg → Nat
  | [] => n
  | msg :: rest =>
    let r := m.Update msg
    let completed : Nat := match msg with
      | .CombinedData _ => 1
      | .error _ => 1
      | _ => 0
    let started : Nat := match r.2 with
      | some (.searchGithub _) => 1
      | _ => 0
    pending r.1 (n - completed + started) rest

/-- The round trip: from `initialModel`, the keys typing `u`, the confirm key,
and the completion message carrying `d`. -/
def roundTrip (u : String) (d : CombinedData) : model :=
  run initialModel (typed u ++ [enter, .CombinedData d])

/-- A style that renders a string as it is. -/
def plainStyle : Style := { render := fun _ s => s, width := none }

/-- Undecorated rendering: every style is plain and the text input shows its
prompt and buffer. -/
def plain : Styles :=
  { titleStyle := plainStyle, subStyle := plainStyle, infoStyle := plainStyle,
    repoStyle := plainStyle, descStyle := plainStyle, errStyle := plainStyle,
    NewStyle := plainStyle, inputView := fun t => "> " ++ t.Value }

/-- A style keeps a string when its rendering of the string contains the
string (as lipgloss does for a line of text without tabs: it puts escape
sequences and padding around the text). -/
def Style.Keeps (s : Style) (str : String) : Prop :=
  str.data <:+: (s.Render str).data

/-- The profile and repository of the round-trip scenario. -/
def fixture : CombinedData :=
  { User := { Login := "octocat", Name := "The Octocat", Bio := "", Location := "",
              PublicRepos := 8, Followers := 10000 },
    Repos := [{ Name := "Hello-World", Description := "", Stars := 1 }] }

/-- A network that answers the profile request for `octocat` with the fixture
profile, under the field names of the API and with `n` as its `public_repos`,
and every other request with the fixture repository list. -/
def fixtureNet (n : Int) : String → HttpResult := fun url =>
  if url = "https://api.github.com/users/octocat" then
    .response 200 (some (.obj [("login", .str "octocat"), ("name", .str "The Octocat"),
      ("public_repos", .int n), ("followers", .int 10000)]))
  else
    .response 200 (some (.arr [.obj [("name", .str "Hello-World"),
      ("description", .null), ("stargazers_count", .int 1)]]))

/-! ## The parts of the result render -/

/-- The contents of the builder of `View` before the stats line: the profile
title and the name, handle and optional location lines. -/
def profileHead (S : Styles) (d : CombinedData) : String :=
  let b := ""
  let b := b ++ ("\n" ++ S.titleStyle.Render "USER PROFILE" ++ "\n")
  let b := b ++ kv S "Name" d.User.Name
  let b := b ++ kv S "Github" ("@" ++ d.User.Login)
  if d.User.Location ≠ "" then b ++ kv S "Location" d.User.Location else b

/-- The stats line of the result render. -/
def statsLine (S : Styles) (d : CombinedData) : String :=
  kv S "Stats"
    (toString d.User.PublicRepos ++ " Repos, " ++ toString d.User.Followers ++ " Followers")

/-- The bio block of the result render: the label line and the bio wrapped to
the width. -/
def bioBlock (S : Styles) (width : Int) (d : CombinedData) : String :=
  (S.subStyle.Render "Bio:" ++ "\n") ++
    ((S.NewStyle.Width (width - 4)).Render d.User.Bio ++ "\n")

/-- The title of the repository block. -/
def reposHeader (S : Styles) : String :=
  "\n" ++ S.titleStyle.Render "LATEST REPOSITORIES" ++ "\n"

/-- What the loop of `View` appends for a list of repositories, in order. -/
def reposBlocks (S : Styles) (width : Int) (repos : List Repo) : String :=
  repos.foldl (fun b r => b ++ repoBlock S width r) ""

/-- The footer hint of the result render. -/
def footer (S : Styles) : String :=
  S.subStyle.Render "(Enter to search again, Ctrl+C to quit)"

/-- The contents of the builder of `View` when the loop over the repositories
starts: the profile lines, the bio block when the bio is not empty, and the
title of the repository block. -/
def resultHead (S : Styles) (width : Int) (d : CombinedData) : String :=
  profileHead S d ++ statsLine S d ++
    (if d.User.Bio ≠ "" then bioBlock S width d else "") ++ reposHeader S

/-- A profile with a bio and two repositories, the first without description. -/
def bioFixture : CombinedData :=
  { User := { Login := "octocat", Name := "The Octocat", Bio := "Mascot", Location := "",
              PublicRepos := 8, Followers := 10000 },
    Repos := [{ Name := "Hello-World", Description := "", Stars := 1 },
              { Name := "Spoon-Knife", Description := "Fork me", Stars := 2 }] }

/-! ## The requests of a query -/

/-- The URL of the first request of `searchGithub`, the profile. -/
def profileURL (user : String) : String := "https://api.github.com/users/" ++ user

/-- The URL of the second request of `searchGithub`, the repository list. -/
def reposURL (user : String) : String :=
  "https://api.github.com/users/" ++ user ++ "/repos?sort=updated&per_page=10"

/-- The call `fetch(url, target)` with the log of the requests handed to the
HTTP client passed along.  An entry of the log is the `url` argument of the
call, as `fetch` received it.  A call that returns has handed over exactly one
request, for `url`; a call that panics has handed over none. -/
def fetchLogged {τ : Type} (net : String → HttpResult)
    (decode : JSON → τ → τ × Option GoError) (url : String) (target : τ)
    (sent : List String) : Option (τ × Option GoError) × List String :=
  (fetch net decode url target, if urlParses url = false then sent else sent ++ [url])

/-- The closure of `searchGithub(user)` with the requests it makes recorded:
the message it returns, if it returns, and the log of its requests, in order. -/
def searchGithubLogged (net : String → HttpResult) (user : String) :
    Option Msg × List String :=
  let data := CombinedData.zero
  match fetchLogged net decodeUser ("https://api.github.com/users/" ++ user) data.User [] with
  | (none, sent) => (none, sent)
  | (some (_, some err), sent) => (some (Msg.error err), sent)
  | (some (u, none), sent) =>
    let data := { data with User := u }
    match fetchLogged net decodeRepos
      ("https://api.github.com/users/" ++ user ++ "/repos?sort=updated&per_page=10")
      data.Repos sent with
    | (none, sent) => (none, sent)
    | (some r, sent) => (some (Msg.CombinedData { data with Repos := r.1 }), sent)

/-- A network that answers every request with status 404. -/
def notFoundNet : String → HttpResult := fun _ => .response 404 none

/-- A network that answers the profile request for `octocat` with a profile and
every other request with status 403. -/
def forbiddenReposNet : String → HttpResult := fun url =>
  if url = "https://api.github.com/users/octocat" then
    .response 200 (some (.obj [("login", .str "octocat"), ("followers", .int 10000)]))
  else .response 403 none

/-- A network that answers the profile request for `octocat` with a profile and
every other request with a repository array whose star count is a string. -/
def badStarsNet : String → HttpResult := fun url =>
  if url = "https://api.github.com/users/octocat" then
    .response 200 (some (.obj [("login", .str "octocat"), ("followers", .int 10000)]))
  else
    .response 200 (some (.arr [.obj [("name", .str "Hello-World"),
      ("stargazers_count", .str "1")]]))

/-! ## Lemmas on the text input and on `Update` -/

theorem textinput_setValue_empty (t : textinput.Model) : (t.SetValue "").Value = "" := by
  have h : ¬ (0 < t.CharLimit ∧ t.CharLimit < 0) := fun h => by omega
  simp only [textinput.Model.SetValue, textinput.sanitize, textinput.Model.setValueInternal,
    textinput.Model.SetCursor, textinput.Model.Value, List.length_nil, Nat.cast_zero, h,
    if_false]
  split <;> rfl

theorem textinput_update_error (t : textinput.Model) (e : GoError) :
    t.Update (.error e) = (t, none) := by
  simp only [textinput.Model.Update, textinput.Model.handle]
  split <;> simp

theorem textinput_update_windowSize (t : textinput.Model) (w h : Int) :
    t.Update (.WindowSizeMsg w h) = (t, none) := by
  simp only [textinput.Model.Update, textinput.Model.handle]
  split <;> simp

theorem textInputHandling_fields (m : model) (msg : Msg) :
    (m.textInputHandling msg).1.loading = m.loading ∧
    (m.textInputHandling msg).1.data = m.data ∧
    (m.textInputHandling msg).1.err = m.err ∧
    (m.textInputHandling msg).1.width = m.width := by
  unfold model.textInputHandling
  split <;> simp

theorem textInputHandling_not_search (m : model) (msg : Msg) (user : String) :
    (m.textInputHandling msg).2 ≠ some (Cmd.searchGithub user) := by
  unfold model.textInputHandling
  split
  · cases h : (m.input.Update msg).2 <;> simp [h]
  · simp

theorem update_enter_of_data_none (m : model) (hd : m.data = none) :
    m.Update enter =
      ({ m with loading := true, err := none }, some (Cmd.searchGithub m.input.Value)) := by
  simp [model.Update, enter, KeyMsg.String, hd]

theorem update_enter_of_data_some (m : model) (hd : m.data ≠ none) :
    m.Update enter = ({ m with data := none, input := m.input.SetValue "" }, none) := by
  simp [model.Update, enter, KeyMsg.String, hd]

theorem keyString_eq_enter (k : KeyMsg) (h : k.String = "enter") : k = .KeyEnter := by
  cases k with
  | KeyRunes r =>
    have hlen := congrArg String.length h
    simp [KeyMsg.String, String.length] at hlen
  | _ => first | rfl | (exfalso; revert h; decide)

theorem update_key_other (m : model) (k : KeyMsg) (h1 : k.String ≠ "enter")
    (h2 : k.String ≠ "ctrl+c") :
    m.Update (.KeyMsg k) = m.textInputHandling (.KeyMsg k) := by
  simp [model.Update, h1, h2]

theorem update_input_of_data_some (m : model) (msg : Msg) (hd : m.data ≠ none)
    (hm : msg ≠ enter) : (m.Update msg).1.input = m.input := by
  cases msg with
  | KeyMsg k =>
    by_cases hq : k.String = "ctrl+c"
    · simp [model.Update, hq]
    · by_cases he : k.String = "enter"
      · exact absurd (congrArg Msg.KeyMsg (keyString_eq_enter k he)) hm
      · rw [update_key_other m k he hq]
        simp [model.textInputHandling, hd]
  | WindowSizeMsg w h => simp [model.Update, model.textInputHandling, hd]
  | CombinedData d => simp [model.Update, model.textInputHandling]
  | error e => simp [model.Update, model.textInputHandling, hd]

theorem update_keeps_loading_clean (m : model) (msg : Msg)
    (h : m.loading = true → m.err = none ∧ m.data = none) :
    (m.Update msg).1.loading = true →
      (m.Update msg).1.err = none ∧ (m.Update msg).1.data = none := by
  cases msg with
  | KeyMsg k =>
    by_cases hq : k.String = "ctrl+c"
    · simpa [model.Update, hq] using h
    · by_cases he : k.String = "enter"
      · by_cases hd : m.data = none
        · simp [model.Update, hq, he, hd]
        · simp only [model.Update, hq, he, if_true, if_false, ne_eq, hd, not_false_eq_true]
          intro hl
          exact absurd (h hl).2 hd
      · rw [update_key_other m k he hq]
        obtain ⟨f1, f2, f3, _⟩ := textInputHandling_fields m (.KeyMsg k)
        rw [f1, f2, f3]
        exact h
  | WindowSizeMsg w hh =>
    obtain ⟨f1, f2, f3, _⟩ :=
      textInputHandling_fields { m with width := w } (.WindowSizeMsg w hh)
    simp only [model.Update]
    rw [f1, f2, f3]
    exact h
  | CombinedData d =>
    obtain ⟨f1, _, _, _⟩ :=
      textInputHandling_fields { m with loading := false, data := some d } (.CombinedData d)
    simp only [model.Update]
    rw [f1]
    intro hl
    exact absurd hl (by simp)
  | error e =>
    obtain ⟨f1, _, _, _⟩ :=
      textInputHandling_fields { m with loading := false, err := some e } (.error e)
    simp only [model.Update]
    rw [f1]
    intro hl
    exact absurd hl (by simp)

theorem run_preserves (P : model → Prop) (hstep : ∀ m msg, P m → P (m.Update msg).1) :
    ∀ (msgs : List Msg) (m : model), P m → P (run m msgs) := by
  intro msgs
  induction msgs with
  | nil => intro m hm; simpa [run] using hm
  | cons msg rest ih =>
    intro m hm
    have := ih (m.Update msg).1 (hstep m msg hm)
    simpa [run] using this

theorem reachable_loading_clean (m : model) (hr : Reachable m) (hl : m.loading = true) :
    m.err = none ∧ m.data = none := by
  obtain ⟨msgs, rfl⟩ := hr
  exact run_preserves (fun m => m.loading = true → m.err = none ∧ m.data = none)
    (fun m msg hm => update_keeps_loading_clean m msg hm) msgs initialModel
    (fun h => absurd h (by decide)) hl

theorem keyString_eq_ctrlC (k : KeyMsg) (h : k.String = "ctrl+c") : k = .KeyCtrlC := by
  cases k with
  | KeyRunes r =>
    have hlen := congrArg String.length h
    simp [KeyMsg.String, String.length] at hlen
  | _ => first | rfl | (exfalso; revert h; decide)

theorem run_append (m : model) (a b : List Msg) : run m (a ++ b) = run (run m a) b := by
  simp [run, List.foldl_append]

theorem run_typed_isInput (cs : List Char) :
    ∀ m : model, m.isInput →
      (run m (cs.map (fun c => Msg.KeyMsg (.KeyRunes c)))).isInput ∧
      (run m (cs.map (fun c => Msg.KeyMsg (.KeyRunes c)))).width = m.width := by
  induction cs with
  | nil => intro m hm; exact ⟨by simpa [run] using hm, by simp [run]⟩
  | cons c rest ih =>
    intro m hm
    have h1 : (KeyMsg.KeyRunes c).String ≠ "enter" := fun h => by
      have := keyString_eq_enter _ h
      cases this
    have h2 : (KeyMsg.KeyRunes c).String ≠ "ctrl+c" := fun h => by
      have := keyString_eq_ctrlC _ h
      cases this
    have hu := update_key_other m (.KeyRunes c) h1 h2
    obtain ⟨f1, f2, f3, f4⟩ := textInputHandling_fields m (.KeyMsg (.KeyRunes c))
    have hstep : (m.Update (.KeyMsg (.KeyRunes c))).1.isInput := by
      rw [hu]
      exact ⟨f1.trans hm.1, f3.trans hm.2.1, f2.trans hm.2.2⟩
    have hw : (m.Update (.KeyMsg (.KeyRunes c))).1.width = m.width := by
      rw [hu]
      exact f4
    obtain ⟨g1, g2⟩ := ih _ hstep
    simp only [List.map_cons, run, List.foldl_cons] at g1 g2 ⊢
    exact ⟨g1, g2.trans hw⟩

theorem roundTrip_fields (u : String) (d : CombinedData) :
    (roundTrip u d).loading = false ∧ (roundTrip u d).err = none ∧
    (roundTrip u d).data = some d ∧ (roundTrip u d).width = 80 := by
  have hin : (run initialModel (typed u)).isInput ∧
      (run initialModel (typed u)).width = initialModel.width :=
    run_typed_isInput u.data initialModel (by decide)
  obtain ⟨⟨hl, he, hd⟩, hw⟩ := hin
  have hrun : roundTrip u d =
      (((run initialModel (typed u)).Update enter).1.Update (.CombinedData d)).1 := by
    simp [roundTrip, run_append, run]
  rw [hrun, update_enter_of_data_none _ hd]
  have hu : ∀ m : model, m.Update (.CombinedData d) =
      ({ m with loading := false, data := some d }, none) := by
    intro m
    simp [model.Update, model.textInputHandling]
  rw [hu]
  exact ⟨rfl, rfl, rfl, hw⟩

theorem infix_append_left {s : List Char} (a b : String) (h : s <:+: a.data) :
    s <:+: (a ++ b).data := by
  rw [String.data_append]
  exact h.trans (List.prefix_append _ _).isInfix

theorem infix_append_right {s : List Char} (a b : String) (h : s <:+: b.data) :
    s <:+: (a ++ b).data := by
  rw [String.data_append]
  exact h.trans (List.suffix_append _ _).isInfix

theorem infix_ite_append {s : List Char} (c : Prop) [Decidable c] (b x : String)
    (h : s <:+: b.data) : s <:+: (if c then b ++ x else b).data := by
  split
  · exact infix_append_left _ _ h
  · exact h

theorem infix_foldl_init {s : List Char} (f : Repo → String) :
    ∀ (l : List Repo) (b : String), s <:+: b.data →
      s <:+: (l.foldl (fun b r => b ++ f r) b).data := by
  intro l
  induction l with
  | nil => intro b h; simpa using h
  | cons r rest ih =>
    intro b h
    simpa using ih (b ++ f r) (infix_append_left _ _ h)

theorem infix_foldl_mem {s : List Char} (f : Repo → String) :
    ∀ (l : List Repo) (b : String) (r : Repo), r ∈ l → s <:+: (f r).data →
      s <:+: (l.foldl (fun b r => b ++ f r) b).data := by
  intro l
  induction l with
  | nil => intro b r hr; simp at hr
  | cons x rest ih =>
    intro b r hr h
    rcases List.mem_cons.mp hr with rfl | hmem
    · simpa using infix_foldl_init f rest (b ++ f r) (infix_append_right _ _ h)
    · simpa using ih (b ++ f x) r hmem h

theorem kv_contains (S : Styles) (k v : String) (hi : S.infoStyle.Keeps v) :
    v.data <:+: (kv S k v).data := by
  unfold kv
  exact infix_append_left _ _ (infix_append_right _ _ hi)

theorem repoBlock_contains (S : Styles) (w : Int) (r : Repo)
    (hr : S.repoStyle.Keeps (r.Name ++ " (★ " ++ toString r.Stars ++ ")")) :
    (r.Name ++ " (★ " ++ toString r.Stars ++ ")").data <:+: (repoBlock S w r).data := by
  unfold repoBlock
  exact infix_append_left _ _ (infix_append_left _ _ hr)

theorem resultView_contains_github {s : List Char} (S : Styles) (w : Int) (d : CombinedData)
    (h : s <:+: (kv S "Github" ("@" ++ d.User.Login)).data) :
    s <:+: (resultView S w d).data := by
  dsimp only [resultView]
  apply infix_append_left
  apply infix_foldl_init
  apply infix_append_left
  split
  · apply infix_append_left
    apply infix_append_left
    apply infix_append_left
    apply infix_ite_append
    exact infix_append_right _ _ h
  · apply infix_append_left
    apply infix_ite_append
    exact infix_append_right _ _ h

theorem resultView_contains_stats {s : List Char} (S : Styles) (w : Int) (d : CombinedData)
    (h : s <:+: (kv S "Stats" (toString d.User.PublicRepos ++ " Repos, " ++
      toString d.User.Followers ++ " Followers")).data) :
    s <:+: (resultView S w d).data := by
  dsimp only [resultView]
  apply infix_append_left
  apply infix_foldl_init
  apply infix_append_left
  split
  · apply infix_append_left
    apply infix_append_left
    exact infix_append_right _ _ h
  · exact infix_append_right _ _ h

theorem resultView_contains_repo {s : List Char} (S : Styles) (w : Int) (d : CombinedData)
    (r : Repo) (hmem : r ∈ d.Repos) (h : s <:+: (repoBlock S w r).data) :
    s <:+: (resultView S w d).data := by
  dsimp only [resultView]
  apply infix_append_left
  exact infix_foldl_mem (repoBlock S w) d.Repos _ r hmem h

theorem pending_enters (m : model) (hd : m.data = none) (k n : Nat) :
    pending m k (List.replicate n enter) = k + n := by
  induction n generalizing m k with
  | zero => simp [pending]
  | succ n ih =>
    have hstep := update_enter_of_data_none m hd
    simp only [List.replicate_succ, pending, enter, hstep] at *
    rw [ih { m with loading := true, err := none } hd]
    omega

/-! ## C1: the confirm key while Loading -/

/-- C1, as stated, fails: after the confirm key from `initialModel` the model
is Loading, and a second confirm key is not ignored: its command is a second
`searchGithub` closure, and two queries are then started and uncompleted. -/
theorem C1_counterexample :
    (run initialModel [enter]).loading = true ∧
    (run initialModel [enter]).Update enter ≠ (run initialModel [enter], none) ∧
    ((run initialModel [enter]).Update enter).2 = some (Cmd.searchGithub "") ∧
    pending initialModel 0 [enter, enter] = 2 ∧
    ¬ pending initialModel 0 [enter, enter] ≤ 1 := by
  decide

/-- C1, amended: in a Loading state (loading, no error, no data) the confirm key
returns the model unchanged and emits the command `searchGithub(buffer)` again,
so every confirm key pressed while Loading starts one more query: `n` confirm
keys from `initialModel` leave `n` queries started and uncompleted. -/
theorem C1_enter_while_loading_searches_again (m : model) (h : m.isLoading) :
    m.Update enter = (m, some (Cmd.searchGithub m.input.Value)) ∧
    ∀ n : Nat, pending initialModel 0 (List.replicate n enter) = n := by
  obtain ⟨hl, he, hd⟩ := h
  refine ⟨?_, fun n => ?_⟩
  · rw [update_enter_of_data_none m hd]
    cases m
    simp_all
  · simpa using pending_enters initialModel rfl 0 n

/-- Witness of C1 amended: the Loading state reached by typing `octocat` and
pressing the confirm key. -/
theorem C1_enter_while_loading_searches_again_witness :
    (run initialModel (typed "octocat" ++ [enter])).isLoading ∧
    (run initialModel (typed "octocat" ++ [enter])).Update enter =
      (run initialModel (typed "octocat" ++ [enter]), some (Cmd.searchGithub "octocat")) ∧
    pending initialModel 0 [enter, enter, enter] = 3 :=
  ⟨by decide,
   (C1_enter_while_loading_searches_again (run initialModel (typed "octocat" ++ [enter]))
      (by decide)).1,
   (C1_enter_while_loading_searches_again (run initialModel (typed "octocat" ++ [enter]))
      (by decide)).2 3⟩

/-! ## C2: failure, then the confirm key -/

/-- C2, as stated, fails: after `octocat`, the confirm key and a failure, the
model is in Error state, and the next confirm key does not reset: the model is
Loading again, the buffer is still `octocat`, and the command is
`searchGithub("octocat")`. -/
theorem C2_counterexample :
    (run initialModel (typed "octocat" ++ [enter, .error ⟨"API error: 404"⟩])).isError ∧
    ((run initialModel (typed "octocat" ++ [enter, .error ⟨"API error: 404"⟩])).Update
      enter).1.loading = true ∧
    ((run initialModel (typed "octocat" ++ [enter, .error ⟨"API error: 404"⟩])).Update
      enter).1.input.Value = "octocat" ∧
    ((run initialModel (typed "octocat" ++ [enter, .error ⟨"API error: 404"⟩])).Update
      enter).1.input.Value ≠ "" ∧
    ((run initialModel (typed "octocat" ++ [enter, .error ⟨"API error: 404"⟩])).Update
      enter).2 = some (Cmd.searchGithub "octocat") := by
  decide

/-- C2, amended: a failure `e` arriving in a Loading state gives the Error state
(not loading, `err = e`, no data) with the buffer and width as they were and no
command; the confirm key then gives back the Loading state with the same
buffer and emits `searchGithub(buffer)`: it submits the failed search term
again. -/
theorem C2_failure_then_enter_retries (m : model) (e : GoError) (h : m.isLoading) :
    (m.Update (.error e)).1.loading = false ∧
    (m.Update (.error e)).1.err = some e ∧
    (m.Update (.error e)).1.data = none ∧
    (m.Update (.error e)).1.input = m.input ∧
    (m.Update (.error e)).1.width = m.width ∧
    (m.Update (.error e)).2 = none ∧
    (m.Update (.error e)).1.Update enter = (m, some (Cmd.searchGithub m.input.Value)) := by
  obtain ⟨hl, he, hd⟩ := h
  have hu : m.Update (.error e) = ({ m with loading := false, err := some e }, none) := by
    simp [model.Update, model.textInputHandling, hd, textinput_update_error]
  rw [hu]
  refine ⟨rfl, rfl, hd, rfl, rfl, rfl, ?_⟩
  have hr := update_enter_of_data_none
    { m with loading := false, err := some e } hd
  rw [hr]
  cases m
  simp_all

/-- Witness of C2 amended: the Loading state reached by typing `octocat` and
pressing the confirm key, and the failure `API error: 404`. -/
theorem C2_failure_then_enter_retries_witness :
    (run initialModel (typed "octocat" ++ [enter])).isLoading ∧
    ((run initialModel (typed "octocat" ++ [enter])).Update
      (.error ⟨"API error: 404"⟩)).1.Update enter =
      (run initialModel (typed "octocat" ++ [enter]), some (Cmd.searchGithub "octocat")) :=
  ⟨by decide,
   (C2_failure_then_enter_retries (run initialModel (typed "octocat" ++ [enter]))
      ⟨"API error: 404"⟩ (by decide)).2.2.2.2.2.2⟩

/-! ## C3: the confirm key in Input state -/

/-- C3: in an Input state with buffer `b` (the empty buffer included) the
confirm key gives the Loading state with the same text input, hence the same
buffer `b`, and the same width, and its command is exactly `searchGithub(b)`,
the closure of `searchGithub` applied to the buffer as it is. -/
theorem C3_enter_in_input_starts_search (m : model) (b : String) (h : m.isInput)
    (hb : m.input.Value = b) :
    (m.Update enter).1.isLoading ∧
    (m.Update enter).1.input = m.input ∧
    (m.Update enter).1.input.Value = b ∧
    (m.Update enter).1.width = m.width ∧
    (m.Update enter).2 = some (Cmd.searchGithub b) := by
  obtain ⟨hl, he, hd⟩ := h
  rw [update_enter_of_data_none m hd]
  subst hb
  exact ⟨⟨rfl, rfl, hd⟩, rfl, rfl, rfl, rfl⟩

/-- Witness of C3: the empty buffer of `initialModel`, and the buffer `100%`
after typing it, which is passed on as it is. -/
theorem C3_enter_in_input_starts_search_witness :
    initialModel.isInput ∧ initialModel.input.Value = "" ∧
    (initialModel.Update enter).2 = some (Cmd.searchGithub "") ∧
    (run initialModel (typed "100%")).isInput ∧
    (run initialModel (typed "100%")).input.Value = "100%" ∧
    ((run initialModel (typed "100%")).Update enter).1.isLoading ∧
    ((run initialModel (typed "100%")).Update enter).1.input.Value = "100%" ∧
    ((run initialModel (typed "100%")).Update enter).2 = some (Cmd.searchGithub "100%") :=
  ⟨by decide, by decide,
   (C3_enter_in_input_starts_search initialModel "" (by decide) (by decide)).2.2.2.2,
   by decide, by decide,
   (C3_enter_in_input_starts_search (run initialModel (typed "100%")) "100%"
      (by decide) (by decide)).1,
   (C3_enter_in_input_starts_search (run initialModel (typed "100%")) "100%"
      (by decide) (by decide)).2.2.1,
   (C3_enter_in_input_starts_search (run initialModel (typed "100%")) "100%"
      (by decide) (by decide)).2.2.2.2⟩

/-! ## C4: the quit key -/

/-- C4: in every model state the quit key `ctrl+c` returns the model unchanged
with the command `tea.Quit`; this holds for every key message whose name is
`ctrl+c`, whatever the state and the buffer. -/
theorem C4_quit_key_quits (m : model) (k : KeyMsg) (hk : k.String = "ctrl+c") :
    m.Update (.KeyMsg k) = (m, some Cmd.Quit) := by
  simp [model.Update, hk]

/-- Witness of C4: the quit key in a Result state. -/
theorem C4_quit_key_quits_witness :
    KeyMsg.KeyCtrlC.String = "ctrl+c" ∧
    (run initialModel [enter, .CombinedData fixture]).Update (.KeyMsg .KeyCtrlC) =
      (run initialModel [enter, .CombinedData fixture], some Cmd.Quit) :=
  ⟨by decide, C4_quit_key_quits _ _ (by decide)⟩

/-! ## C5: keys while Loading -/

/-- C5, as stated, fails: in the Loading state reached from `initialModel` by
the confirm key the character key `a` is not dropped, the buffer changes from
empty to `a`; and the buffer also changes in a step taken from a Result state,
where the confirm key clears the buffer `octocat`. -/
theorem C5_counterexample :
    (run initialModel [enter]).loading = true ∧
    (KeyMsg.KeyRunes 'a').String ≠ "enter" ∧
    (KeyMsg.KeyRunes 'a').String ≠ "ctrl+c" ∧
    (run initialModel [enter]).input.Value = "" ∧
    ((run initialModel [enter]).Update (.KeyMsg (.KeyRunes 'a'))).1.input.Value
      = "a" ∧
    (run initialModel (typed "octocat" ++ [enter, .CombinedData fixture])).isResult ∧
    (run initialModel (typed "octocat" ++ [enter, .CombinedData fixture])).input.Value
      = "octocat" ∧
    ((run initialModel (typed "octocat" ++ [enter, .CombinedData fixture])).Update
      enter).1.input.Value = "" := by
  decide

/-- C5, amended: while loading, a key other than `enter` and `ctrl+c` leaves the
mode unchanged (loading, data, err and width as before), but with data nil it
is forwarded to the text input, whose update is the new input, so the buffer
can change.  The buffer changes only in an Update step taken with data nil
(Input, Loading or Error state) or by the confirm key. -/
theorem C5_keys_while_loading_reach_the_input (m : model) (k : KeyMsg)
    (hl : m.loading = true) (h1 : k.String ≠ "enter") (h2 : k.String ≠ "ctrl+c") :
    (m.Update (.KeyMsg k)).1.loading = true ∧
    (m.Update (.KeyMsg k)).1.data = m.data ∧
    (m.Update (.KeyMsg k)).1.err = m.err ∧
    (m.Update (.KeyMsg k)).1.width = m.width ∧
    (m.data = none → (m.Update (.KeyMsg k)).1.input = (m.input.Update (.KeyMsg k)).1) ∧
    ∀ (m0 : model) (msg : Msg),
      (m0.Update msg).1.input.Value ≠ m0.input.Value → m0.data = none ∨ msg = enter := by
  rw [update_key_other m k h1 h2]
  obtain ⟨f1, f2, f3, f4⟩ := textInputHandling_fields m (.KeyMsg k)
  refine ⟨f1.trans hl, f2, f3, f4, ?_, ?_⟩
  · intro hd
    simp [model.textInputHandling, hd]
  · intro m0 msg hne
    by_cases hd : m0.data = none
    · exact Or.inl hd
    · by_cases hm : msg = enter
      · exact Or.inr hm
      · exact absurd (congrArg textinput.Model.Value (update_input_of_data_some m0 msg hd hm)) hne

/-- Witness of C5 amended: the key `a` in the Loading state reached by the
confirm key from `initialModel`. -/
theorem C5_keys_while_loading_reach_the_input_witness :
    (run initialModel [enter]).loading = true ∧
    ((run initialModel [enter]).Update (.KeyMsg (.KeyRunes 'a'))).1.loading
      = true ∧
    ((run initialModel [enter]).Update (.KeyMsg (.KeyRunes 'a'))).1.input =
      ((run initialModel [enter]).input.Update (.KeyMsg (.KeyRunes 'a'))).1 :=
  ⟨by decide,
   (C5_keys_while_loading_reach_the_input (run initialModel [enter])
      (.KeyRunes 'a') (by decide) (by decide) (by decide)).1,
   (C5_keys_while_loading_reach_the_input (run initialModel [enter])
      (.KeyRunes 'a') (by decide) (by decide) (by decide)).2.2.2.2.1 (by decide)⟩

/-! ## C6: the confirm key in Result state -/

/-- C6: in a Result state the confirm key gives the Input state (no data, not
loading, no error) with an empty buffer and the same width, and emits no
command. -/
theorem C6_enter_in_result_resets (m : model) (h : m.isResult) :
    (m.Update enter).1.isInput ∧
    (m.Update enter).1.input.Value = "" ∧
    (m.Update enter).1.width = m.width ∧
    (m.Update enter).2 = none := by
  obtain ⟨hd, hl, he⟩ := h
  rw [update_enter_of_data_some m hd]
  exact ⟨⟨hl, he, rfl⟩, textinput_setValue_empty m.input, rfl, rfl⟩

/-- Witness of C6: the Result state reached by typing `octocat`, the confirm
key and the completion carrying the fixture. -/
theorem C6_enter_in_result_resets_witness :
    (run initialModel (typed "octocat" ++ [enter, .CombinedData fixture])).isResult ∧
    ((run initialModel (typed "octocat" ++ [enter, .CombinedData fixture])).Update
      enter).1.input.Value = "" ∧
    ((run initialModel (typed "octocat" ++ [enter, .CombinedData fixture])).Update
      enter).2 = none :=
  ⟨by decide,
   (C6_enter_in_result_resets
      (run initialModel (typed "octocat" ++ [enter, .CombinedData fixture])) (by decide)).2.1,
   (C6_enter_in_result_resets
      (run initialModel (typed "octocat" ++ [enter, .CombinedData fixture]))
      (by decide)).2.2.2⟩

/-! ## C7: completion while Loading -/

/-- C7: for every state reachable from `initialModel` that is loading and every
`CombinedData` `d`, the completion message `d` gives the Result state carrying
`d` (not loading, `data = d`, no error), with the input and width as they
were, and `View` of it is the result block of `d`, under every styling. -/
theorem C7_completion_while_loading_gives_result (m : model) (d : CombinedData)
    (hr : Reachable m) (hl : m.loading = true) :
    (m.Update (.CombinedData d)).1.loading = false ∧
    (m.Update (.CombinedData d)).1.data = some d ∧
    (m.Update (.CombinedData d)).1.err = none ∧
    (m.Update (.CombinedData d)).1.input = m.input ∧
    (m.Update (.CombinedData d)).1.width = m.width ∧
    ∀ S : Styles, (m.Update (.CombinedData d)).1.View S = resultView S m.width d := by
  obtain ⟨he, _⟩ := reachable_loading_clean m hr hl
  have hu : m.Update (.CombinedData d) =
      ({ m with loading := false, data := some d }, none) := by
    simp [model.Update, model.textInputHandling]
  rw [hu]
  refine ⟨rfl, rfl, he, rfl, rfl, fun S => ?_⟩
  simp [model.View, he]

/-- Witness of C7: the Loading state reached by typing `octocat` and the
confirm key, and the fixture as completion. -/
theorem C7_completion_while_loading_gives_result_witness :
    Reachable (run initialModel (typed "octocat" ++ [enter])) ∧
    (run initialModel (typed "octocat" ++ [enter])).loading = true ∧
    ((run initialModel (typed "octocat" ++ [enter])).Update (.CombinedData fixture)).1.View
      plain = resultView plain 80 fixture :=
  ⟨⟨_, rfl⟩, by decide,
   (C7_completion_while_loading_gives_result (run initialModel (typed "octocat" ++ [enter]))
      fixture ⟨_, rfl⟩ (by decide)).2.2.2.2.2 plain⟩

/-! ## C8: failure -/

/-- C8: in every model state a failure message `e` gives a model that is not
loading with `err = e`, and `View` of it is exactly the error view: a newline,
the message of `e` rendered in `errStyle`, and the hint line
`(Enter to try again)`; it contains the rendered message and the hint, it
contains the message itself when `errStyle` keeps it, and it has no other
part. -/
theorem C8_failure_gives_error_view (S : Styles) (m : model) (e : GoError) :
    (m.Update (.error e)).1.loading = false ∧
    (m.Update (.error e)).1.err = some e ∧
    (m.Update (.error e)).1.View S =
      "\n" ++ S.errStyle.Render e.Error ++ "\n(Enter to try again)\n" ∧
    (S.errStyle.Render e.Error).data <:+: ((m.Update (.error e)).1.View S).data ∧
    "(Enter to try again)".data <:+: ((m.Update (.error e)).1.View S).data ∧
    (S.errStyle.Keeps e.Error → e.Error.data <:+: ((m.Update (.error e)).1.View S).data) := by
  obtain ⟨f1, _, f3, _⟩ :=
    textInputHandling_fields { m with loading := false, err := some e } (.error e)
  have hl : (m.Update (.error e)).1.loading = false := by
    simp only [model.Update]
    exact f1
  have he : (m.Update (.error e)).1.err = some e := by
    simp only [model.Update]
    exact f3
  have hv : (m.Update (.error e)).1.View S =
      "\n" ++ S.errStyle.Render e.Error ++ "\n(Enter to try again)\n" := by
    simp [model.View, hl, he]
  refine ⟨hl, he, hv, ?_, ?_, ?_⟩
  · rw [hv]
    exact infix_append_left _ _ (infix_append_right _ _ List.infix_rfl)
  · rw [hv]
    exact infix_append_right _ _ ⟨"\n".data, "\n".data, by decide⟩
  · intro hk
    rw [hv]
    exact infix_append_left _ _ (infix_append_right _ _ hk)

/-- Witness of C8: the failure `API error: 404` in a Result state, rendered
without decoration. -/
theorem C8_failure_gives_error_view_witness :
    plain.errStyle.Keeps "API error: 404" ∧
    ((run initialModel [enter, .CombinedData fixture]).Update
      (.error ⟨"API error: 404"⟩)).1.View plain = "\nAPI error: 404\n(Enter to try again)\n" ∧
    "API error: 404".data <:+: (((run initialModel [enter, .CombinedData fixture]).Update
      (.error ⟨"API error: 404"⟩)).1.View plain).data :=
  ⟨List.infix_rfl,
   (C8_failure_gives_error_view plain (run initialModel [enter, .CombinedData fixture])
      ⟨"API error: 404"⟩).2.2.1,
   (C8_failure_gives_error_view plain (run initialModel [enter, .CombinedData fixture])
      ⟨"API error: 404"⟩).2.2.2.2.2 List.infix_rfl⟩

/-! ## C9: round trip from typing to render -/

/-- C9: from `initialModel`, after the keys typing a username `u`, the confirm
key and a completion message carrying `d`, `View` is the Result render of `d`
at the initial width 80; when `infoStyle` keeps the handle and the stats text
and `repoStyle` keeps the name-and-stars text of a repository `r` of `d`, it
contains the login, the decimal public-repository count, the decimal follower
count, the name of `r` and `★ ` followed by the decimal star count of `r`. -/
theorem C9_round_trip_renders_result (S : Styles) (u : String) (d : CombinedData) (r : Repo)
    (hlogin : S.infoStyle.Keeps ("@" ++ d.User.Login))
    (hinfo : S.infoStyle.Keeps (toString d.User.PublicRepos ++ " Repos, " ++
      toString d.User.Followers ++ " Followers"))
    (hr : S.repoStyle.Keeps (r.Name ++ " (★ " ++ toString r.Stars ++ ")"))
    (hmem : r ∈ d.Repos) :
    (roundTrip u d).View S = resultView S 80 d ∧
    d.User.Login.data <:+: ((roundTrip u d).View S).data ∧
    (toString d.User.PublicRepos).data <:+: ((roundTrip u d).View S).data ∧
    (toString d.User.Followers).data <:+: ((roundTrip u d).View S).data ∧
    r.Name.data <:+: ((roundTrip u d).View S).data ∧
    ("★ " ++ toString r.Stars).data <:+: ((roundTrip u d).View S).data := by
  obtain ⟨hl, he, hd, hw⟩ := roundTrip_fields u d
  have hv : (roundTrip u d).View S = resultView S 80 d := by
    simp [model.View, hl, he, hd, hw]
  have hstats := kv_contains S "Stats" _ hinfo
  have hline := repoBlock_contains S 80 r hr
  have hstar : " (★ " = " (" ++ "★ " := by decide
  refine ⟨hv, ?_, ?_, ?_, ?_, ?_⟩
  · rw [hv]
    exact resultView_contains_github S 80 d
      ((infix_append_right "@" _ List.infix_rfl).trans (kv_contains S "Github" _ hlogin))
  · rw [hv]
    refine resultView_contains_stats S 80 d (List.IsInfix.trans ?_ hstats)
    exact infix_append_left _ _ (infix_append_left _ _ (infix_append_left _ _ List.infix_rfl))
  · rw [hv]
    refine resultView_contains_stats S 80 d (List.IsInfix.trans ?_ hstats)
    exact infix_append_left _ _ (infix_append_right _ _ List.infix_rfl)
  · rw [hv]
    refine resultView_contains_repo S 80 d r hmem (List.IsInfix.trans ?_ hline)
    exact infix_append_left _ _ (infix_append_left _ _ (infix_append_left _ _ List.infix_rfl))
  · rw [hv]
    refine resultView_contains_repo S 80 d r hmem (List.IsInfix.trans ?_ hline)
    rw [hstar, ← String.append_assoc, String.append_assoc (r.Name ++ " (")]
    exact infix_append_left _ _ (infix_append_right _ _ List.infix_rfl)

/-- Witness of C9: the username `octocat` and the fixture, rendered without
decoration; the render contains `octocat`, `8`, `10000`, `Hello-World` and
`★ 1`. -/
theorem C9_round_trip_renders_result_witness :
    (roundTrip "octocat" fixture).View plain =
      "\nUSER PROFILE\nName: The Octocat\nGithub: @octocat\nStats: 8 Repos, 10000 Followers\n" ++
      "\nLATEST REPOSITORIES\nHello-World (★ 1)\nNo description.\n\n" ++
      "(Enter to search again, Ctrl+C to quit)" ∧
    "octocat".data <:+: ((roundTrip "octocat" fixture).View plain).data ∧
    "8".data <:+: ((roundTrip "octocat" fixture).View plain).data ∧
    "10000".data <:+: ((roundTrip "octocat" fixture).View plain).data ∧
    "Hello-World".data <:+: ((roundTrip "octocat" fixture).View plain).data ∧
    "★ 1".data <:+: ((roundTrip "octocat" fixture).View plain).data :=
  ⟨by rfl,
   (C9_round_trip_renders_result plain "octocat" fixture
      { Name := "Hello-World", Description := "", Stars := 1 }
      List.infix_rfl List.infix_rfl List.infix_rfl (by decide)).2⟩

/-! ## Lemmas on `fetch` -/

theorem takeWhile_append_all (p : Char → Bool) :
    ∀ (l s : List Char), (∀ x ∈ l, p x = true) → (l ++ s).takeWhile p = l ++ s.takeWhile p := by
  intro l
  induction l with
  | nil => intro s _; rfl
  | cons c rest ih =>
    intro s h
    have hc : p c = true := h c (List.mem_cons_self _ _)
    have hr := ih s (fun x hx => h x (List.mem_cons_of_mem _ hx))
    simp [List.takeWhile, hc, hr]

theorem takeWhile_append_not_all (p : Char → Bool) :
    ∀ (l s : List Char), ¬ (∀ x ∈ l, p x = true) → (l ++ s).takeWhile p = l.takeWhile p := by
  intro l
  induction l with
  | nil => intro s h; exact absurd (fun x hx => by cases hx) h
  | cons c rest ih =>
    intro s h
    by_cases hc : p c = true
    · have hr : ¬ (∀ x ∈ rest, p x = true) := fun hall =>
        h (fun x hx => by
          rcases List.mem_cons.mp hx with rfl | hx
          · exact hc
          · exact hall x hx)
      simp [List.takeWhile, hc, ih s hr]
    · simp [List.takeWhile, hc]

theorem dropWhile_append_all (p : Char → Bool) :
    ∀ (l s : List Char), (∀ x ∈ l, p x = true) → (l ++ s).dropWhile p = s.dropWhile p := by
  intro l
  induction l with
  | nil => intro s _; rfl
  | cons c rest ih =>
    intro s h
    have hc : p c = true := h c (List.mem_cons_self _ _)
    have hr := ih s (fun x hx => h x (List.mem_cons_of_mem _ hx))
    simp [List.dropWhile, hc, hr]

theorem dropWhile_append_not_all (p : Char → Bool) :
    ∀ (l s : List Char), ¬ (∀ x ∈ l, p x = true) →
      (l ++ s).dropWhile p = l.dropWhile p ++ s ∧ l.dropWhile p ≠ [] := by
  intro l
  induction l with
  | nil => intro s h; exact absurd (fun x hx => by cases hx) h
  | cons c rest ih =>
    intro s h
    by_cases hc : p c = true
    · have hr : ¬ (∀ x ∈ rest, p x = true) := fun hall =>
        h (fun x hx => by
          rcases List.mem_cons.mp hx with rfl | hx
          · exact hc
          · exact hall x hx)
      simpa [List.dropWhile, hc] using ih s hr
    · simp [List.dropWhile, hc]

theorem validEscapes_append (t : List Char) (ht : validEscapes 0 t = true) :
    ∀ (f : List Char) (n : Nat), validEscapes n f = true → validEscapes n (f ++ t) = true := by
  intro f
  induction f with
  | nil =>
    intro n h
    cases n with
    | zero => simpa using ht
    | succ n => simp [validEscapes] at h
  | cons c rest ih =>
    intro n h
    cases n with
    | zero =>
      by_cases hc : c = '%'
      · simp only [validEscapes, hc, if_true, List.cons_append] at h ⊢
        exact ih 2 h
      · simp only [validEscapes, hc, if_false, List.cons_append] at h ⊢
        exact ih 0 h
    | succ n =>
      simp only [validEscapes, List.cons_append, Bool.and_eq_true] at h ⊢
      exact ⟨h.1, ih n h.2⟩

theorem urlParses_repos_of_profile (user : String) (h : urlParses (profileURL user) = true) :
    urlParses (reposURL user) = true := by
  have hdata : (reposURL user).data =
      (profileURL user).data ++ "/repos?sort=updated&per_page=10".data := by
    simp [reposURL, profileURL]
  have hS1 : "/repos?sort=updated&per_page=10".data.takeWhile (fun c => c != '#') =
      "/repos?sort=updated&per_page=10".data := by decide
  have hS2 : "/repos?sort=updated&per_page=10".data.dropWhile (fun c => c != '#') = [] := by
    decide
  have hS3 : "/repos?sort=updated&per_page=10".data.any isCTLByte = false := by decide
  have hS4 : "/repos?sort=updated&per_page=10".data.takeWhile (fun c => c != '?') =
      "/repos".data := by decide
  have hS5 : validEscapes 0 "/repos?sort=updated&per_page=10".data = true := by decide
  have hS6 : validEscapes 0 "/repos".data = true := by decide
  unfold urlParses at h ⊢
  rw [hdata]
  generalize (profileURL user).data = l at h ⊢
  simp only [Bool.and_eq_true, Bool.not_eq_true'] at h ⊢
  obtain ⟨⟨h1, h2⟩, h3⟩ := h
  by_cases hh : ∀ x ∈ l, (fun c : Char => c != '#') x = true
  · have ht : l.takeWhile (fun c => c != '#') = l := by
      simpa using takeWhile_append_all _ l [] hh
    rw [ht] at h1 h2
    rw [takeWhile_append_all _ l _ hh, dropWhile_append_all _ l _ hh, hS1, hS2]
    refine ⟨⟨by simp [List.any_append, h1, hS3], ?_⟩, by decide⟩
    by_cases hq : ∀ x ∈ l, (fun c : Char => c != '?') x = true
    · have hq2 : l.takeWhile (fun c => c != '?') = l := by
        simpa using takeWhile_append_all _ l [] hq
      rw [hq2] at h2
      rw [takeWhile_append_all _ l _ hq, hS4]
      exact validEscapes_append _ hS6 l 0 h2
    · rw [takeWhile_append_not_all _ l _ hq]
      exact h2
  · obtain ⟨hd1, hd2⟩ := dropWhile_append_not_all _ l "/repos?sort=updated&per_page=10".data hh
    rw [takeWhile_append_not_all _ l _ hh, hd1]
    refine ⟨⟨h1, h2⟩, ?_⟩
    cases hdw : l.dropWhile (fun c => c != '#') with
    | nil => exact absurd hdw hd2
    | cons c rest =>
      rw [hdw] at h3
      simp only [List.cons_append, List.drop_succ_cons, List.drop_zero] at h3 ⊢
      exact validEscapes_append _ hS5 rest 0 h3

theorem fetch_some_parses {τ : Type} (net : String → HttpResult)
    (decode : JSON → τ → τ × Option GoError) (url : String) (target : τ)
    (r : τ × Option GoError) (h : fetch net decode url target = some r) :
    urlParses url = true := by
  unfold fetch at h
  by_cases hp : urlParses url = false
  · simp [hp] at h
  · simpa using hp

theorem fetch_returns_of_parses {τ : Type} (net : String → HttpResult)
    (decode : JSON → τ → τ × Option GoError) (url : String) (target : τ)
    (h : urlParses url = true) : ∃ r, fetch net decode url target = some r := by
  unfold fetch
  simp only [h, Bool.true_eq_false, if_false]
  cases net url with
  | transportError e => exact ⟨_, rfl⟩
  | response code body =>
    dsimp only
    split
    · exact ⟨_, rfl⟩
    · split <;> exact ⟨_, rfl⟩

theorem fetch_congr {τ : Type} (net net2 : String → HttpResult)
    (decode : JSON → τ → τ × Option GoError) (url : String) (target : τ)
    (h : net2 url = net url) : fetch net2 decode url target = fetch net decode url target := by
  unfold fetch
  rw [h]

theorem searchGithubLogged_fst (net : String → HttpResult) (user : String) :
    (searchGithubLogged net user).1 = searchGithub net user := by
  unfold searchGithubLogged searchGithub fetchLogged
  rcases h : fetch net decodeUser ("https://api.github.com/users/" ++ user)
    CombinedData.zero.User with _ | ⟨u, _ | e⟩
  · simp [h]
  · simp only [h]
    rcases h2 : fetch net decodeRepos
      ("https://api.github.com/users/" ++ user ++ "/repos?sort=updated&per_page=10")
      CombinedData.zero.Repos with _ | r <;> simp [h2]
  · simp [h]

/-- The panic of `fetch`: for a username whose profile URL does not parse,
whatever the network answers, the first call of `fetch` does not return, the
closure of `searchGithub` delivers no message, and no request is handed to the
client. -/
theorem searchGithub_panics_of_bad_url (net : String → HttpResult) (user : String)
    (h : urlParses (profileURL user) = false) :
    fetch net decodeUser (profileURL user) User.zero = none ∧
    searchGithub net user = none ∧
    searchGithubLogged net user = (none, []) := by
  have h0 : urlParses ("https://api.github.com/users/" ++ user) = false := h
  refine ⟨?_, ?_, ?_⟩
  · simp [fetch, profileURL, h0]
  · simp [searchGithub, fetch, h0]
  · simp [searchGithubLogged, fetchLogged, fetch, h0]

/-- The usernames `%` and `100%` can be typed and make `searchGithub` panic: a
`%` must be followed by two hexadecimal digits. -/
theorem searchGithub_panics_on_bad_escape (net : String → HttpResult) :
    searchGithub net "%" = none ∧ searchGithubLogged net "%" = (none, []) ∧
    searchGithub net "100%" = none ∧ searchGithubLogged net "100%" = (none, []) ∧
    (run initialModel (typed "%")).input.Value = "%" ∧
    ((run initialModel (typed "%")).Update enter).2 = some (Cmd.searchGithub "%") :=
  ⟨(searchGithub_panics_of_bad_url net "%" (by decide)).2.1,
   (searchGithub_panics_of_bad_url net "%" (by decide)).2.2,
   (searchGithub_panics_of_bad_url net "100%" (by decide)).2.1,
   (searchGithub_panics_of_bad_url net "100%" (by decide)).2.2,
   by decide, by decide⟩

/-! ## C10: decoding the profile -/

/-- C10 fails on the code: the profile answered with status 200 carries
`"public_repos": 8`, and the `CombinedData` produced by `searchGithub` has
`PublicRepos = 0`, as it has for every count `n` the profile carries, because
the key `public_repos` matches no field of the untagged struct (`PublicRepos`
differs from it by more than case); `login` and `followers` are decoded, and
so is `stargazers_count`, whose field has a tag. -/
theorem C10_public_repos_is_not_decoded :
    searchGithub (fixtureNet 8) "octocat" =
      some (Msg.CombinedData
        { User := { Login := "octocat", Name := "The Octocat", Bio := "", Location := "",
                    PublicRepos := 0, Followers := 10000 },
          Repos := [{ Name := "Hello-World", Description := "", Stars := 1 }] }) ∧
    (∀ n : Int, searchGithub (fixtureNet n) "octocat" =
      some (Msg.CombinedData
        { User := { Login := "octocat", Name := "The Octocat", Bio := "", Location := "",
                    PublicRepos := 0, Followers := 10000 },
          Repos := [{ Name := "Hello-World", Description := "", Stars := 1 }] })) ∧
    findField userFields "public_repos" = none ∧
    findField userFields "followers" = some UserField.Followers ∧
    findField userFields "login" = some UserField.Login ∧
    findField repoFields "stargazers_count" = some RepoField.Stars := by
  have h1 : findField userFields "public_repos" = none := by decide
  have h2 : findField userFields "followers" = some UserField.Followers := by decide
  have h3 : findField userFields "login" = some UserField.Login := by decide
  have h4 : findField userFields "name" = some UserField.Name := by decide
  have u1 : ("https://api.github.com/users/" ++ "octocat" : String) =
      "https://api.github.com/users/octocat" := by decide
  have u2 : ¬ ("https://api.github.com/users/octocat" ++ "/repos?sort=updated&per_page=10"
      : String) = "https://api.github.com/users/octocat" := by decide
  have p1 : urlParses "https://api.github.com/users/octocat" = true := by decide
  have p2 : urlParses ("https://api.github.com/users/octocat" ++
      "/repos?sort=updated&per_page=10") = true := by decide
  refine ⟨by decide, fun n => ?_, h1, h2, h3, by decide⟩
  simp only [searchGithub, fetch, fixtureNet, u1, u2, p1, p2, if_true, if_false, decodeUser,
    decodeUserMembers, h1, h2, h3, h4, Bool.true_eq_false]
  decide

/-! ## C11: the profile fetch fails -/

/-- C11: for every username, if the profile fetch (the first call of `fetch`)
returns an error, the message of `searchGithub` is that error, not a
`CombinedData`, and the repository fetch is not performed: the only request
handed to the client is the profile request, and the message is the same
whatever the network would answer to any other request.  (A call of `fetch`
that panics returns no error; see `searchGithub_panics_on_bad_escape`.) -/
theorem C11_profile_failure_fails_query (net : String → HttpResult) (user : String)
    (u : User) (err : GoError)
    (h : fetch net decodeUser (profileURL user) User.zero = some (u, some err)) :
    searchGithub net user = some (Msg.error err) ∧
    (∀ d : CombinedData, searchGithub net user ≠ some (Msg.CombinedData d)) ∧
    searchGithubLogged net user = (some (Msg.error err), [profileURL user]) ∧
    ∀ net2 : String → HttpResult, net2 (profileURL user) = net (profileURL user) →
      searchGithub net2 user = some (Msg.error err) := by
  have h0 : fetch net decodeUser ("https://api.github.com/users/" ++ user)
      CombinedData.zero.User = some (u, some err) := h
  have hp : urlParses ("https://api.github.com/users/" ++ user) = true :=
    fetch_some_parses _ _ _ _ _ h0
  have hs : ∀ net2 : String → HttpResult, net2 (profileURL user) = net (profileURL user) →
      searchGithub net2 user = some (Msg.error err) := by
    intro net2 hn
    have h2 : fetch net2 decodeUser ("https://api.github.com/users/" ++ user)
        CombinedData.zero.User = some (u, some err) :=
      (fetch_congr net net2 decodeUser _ _ hn).trans h0
    simp [searchGithub, h2]
  have hl : searchGithubLogged net user = (some (Msg.error err), [profileURL user]) := by
    simp [searchGithubLogged, fetchLogged, h0, hp, profileURL]
  refine ⟨hs net rfl, fun d hd => ?_, hl, hs⟩
  rw [hs net rfl] at hd
  cases hd

/-- Witness of C11: every request answered with status 404. -/
theorem C11_profile_failure_fails_query_witness :
    fetch notFoundNet decodeUser (profileURL "octocat") User.zero =
      some (User.zero, some ⟨"API error: 404"⟩) ∧
    searchGithub notFoundNet "octocat" = some (Msg.error ⟨"API error: 404"⟩) ∧
    searchGithubLogged notFoundNet "octocat" =
      (some (Msg.error ⟨"API error: 404"⟩), ["https://api.github.com/users/octocat"]) :=
  ⟨by decide,
   (C11_profile_failure_fails_query notFoundNet "octocat" User.zero ⟨"API error: 404"⟩
      (by decide)).1,
   (C11_profile_failure_fails_query notFoundNet "octocat" User.zero ⟨"API error: 404"⟩
      (by decide)).2.2.1⟩

/-! ## C12: the repository fetch fails -/

theorem decodeRepoElems_length (elems : List JSON) :
    (decodeRepoElems elems).1.length = elems.length := by
  induction elems with
  | nil => rfl
  | cons j rest ih => simp [decodeRepoElems, ih]

theorem fetch_repos_empty_of_not_array (net : String → HttpResult) (url : String)
    (r : List Repo × Option GoError) (hr : fetch net decodeRepos url [] = some r)
    (h : ∀ elems : List JSON, net url ≠ .response 200 (some (.arr elems))) :
    r.1 = [] := by
  unfold fetch at hr
  by_cases hp : urlParses url = false
  · simp [hp] at hr
  · simp only [hp, if_false] at hr
    cases hn : net url with
    | transportError e =>
      rw [hn] at hr
      cases hr
      rfl
    | response code body =>
      rw [hn] at hr
      by_cases hc : code = 200
      · subst hc
        cases body with
        | none =>
          simp at hr
          rw [← hr]
        | some j =>
          cases j with
          | arr elems => exact absurd hn (h elems)
          | _ =>
            simp [decodeRepos] at hr
            rw [← hr]
      · simp [hc] at hr
        rw [← hr]

theorem fetch_repos_of_array (net : String → HttpResult) (url : String) (elems : List JSON)
    (r : List Repo × Option GoError) (hr : fetch net decodeRepos url [] = some r)
    (h : net url = .response 200 (some (.arr elems))) :
    r = decodeRepoElems elems := by
  unfold fetch at hr
  by_cases hp : urlParses url = false
  · simp [hp] at hr
  · simp [hp, h, decodeRepos] at hr
    exact hr.symm

/-- C12, as stated, fails: the profile fetch succeeds, the repository fetch
returns a JSON decode error (the star count of the only array element is a
string), and the `CombinedData` of `searchGithub` holds one repository, not
none: the element decoded before the error was reported stays in the slice. -/
theorem C12_counterexample :
    fetch badStarsNet decodeUser (profileURL "octocat") User.zero =
      some ({ Login := "octocat", Name := "", Bio := "", Location := "",
              PublicRepos := 0, Followers := 10000 }, none) ∧
    fetch badStarsNet decodeRepos (reposURL "octocat") [] =
      some ([{ Name := "Hello-World", Description := "", Stars := 0 }],
        some ⟨"json: cannot unmarshal string into Go struct field .stargazers_count of type int"⟩) ∧
    searchGithub badStarsNet "octocat" =
      some (Msg.CombinedData
        { User := { Login := "octocat", Name := "", Bio := "", Location := "",
                    PublicRepos := 0, Followers := 10000 },
          Repos := [{ Name := "Hello-World", Description := "", Stars := 0 }] }) ∧
    (fetch badStarsNet decodeRepos (reposURL "octocat") []).map (fun r => r.1.length) =
      some 1 ∧
    (fetch badStarsNet decodeRepos (reposURL "octocat") []).map (fun r => r.1.length) ≠
      some 0 := by
  decide

/-- C12, amended: for every username, if the profile fetch succeeds with
profile `u`, the repository fetch returns and the message of `searchGithub` is
a `CombinedData` holding `u` and whatever the repository fetch left in the
slice, never an error, whether or not the repository fetch failed.  The slice
is empty unless the repository response is a JSON array with status 200 (so it
is empty after a transport error, a status other than 200 and a body that is
not well-formed JSON); for such an array it holds one element per array
element, decode errors included. -/
theorem C12_repo_failure_is_swallowed (net : String → HttpResult) (user : String) (u : User)
    (hp : fetch net decodeUser (profileURL user) User.zero = some (u, none)) :
    ∃ (repos : List Repo) (rerr : Option GoError),
      fetch net decodeRepos (reposURL user) [] = some (repos, rerr) ∧
      searchGithub net user = some (Msg.CombinedData { User := u, Repos := repos }) ∧
      (∀ e : GoError, searchGithub net user ≠ some (Msg.error e)) ∧
      ((∀ elems : List JSON, net (reposURL user) ≠ .response 200 (some (.arr elems))) →
        repos = []) ∧
      (∀ elems : List JSON, net (reposURL user) = .response 200 (some (.arr elems)) →
        repos = (decodeRepoElems elems).1 ∧ repos.length = elems.length) := by
  have hparse : urlParses (reposURL user) = true :=
    urlParses_repos_of_profile user (fetch_some_parses _ _ _ _ _ hp)
  obtain ⟨⟨repos, rerr⟩, hr⟩ := fetch_returns_of_parses net decodeRepos (reposURL user) []
    hparse
  have hp0 : fetch net decodeUser ("https://api.github.com/users/" ++ user)
      CombinedData.zero.User = some (u, none) := hp
  have hr0 : fetch net decodeRepos
      ("https://api.github.com/users/" ++ user ++ "/repos?sort=updated&per_page=10")
      CombinedData.zero.Repos = some (repos, rerr) := hr
  have hs : searchGithub net user =
      some (Msg.CombinedData { User := u, Repos := repos }) := by
    simp only [searchGithub, hp0, hr0]
  refine ⟨repos, rerr, hr, hs, fun e he => ?_, fun h => ?_, fun elems h => ?_⟩
  · rw [hs] at he
    cases he
  · exact fetch_repos_empty_of_not_array net _ _ hr h
  · have := fetch_repos_of_array net _ elems _ hr h
    rw [← this]
    exact ⟨rfl, by
      have hlen := decodeRepoElems_length elems
      rw [← this] at hlen
      exact hlen⟩

/-- Witness of C12 amended: the profile is answered and the repository request
gets status 403; the query succeeds with no repository. -/
theorem C12_repo_failure_is_swallowed_witness :
    fetch forbiddenReposNet decodeUser (profileURL "octocat") User.zero =
      some ({ Login := "octocat", Name := "", Bio := "", Location := "",
              PublicRepos := 0, Followers := 10000 }, none) ∧
    fetch forbiddenReposNet decodeRepos (reposURL "octocat") [] =
      some ([], some ⟨"API error: 403"⟩) ∧
    searchGithub forbiddenReposNet "octocat" =
      some (Msg.CombinedData
        { User := { Login := "octocat", Name := "", Bio := "", Location := "",
                    PublicRepos := 0, Followers := 10000 },
          Repos := [] }) ∧
    ∃ (repos : List Repo) (rerr : Option GoError),
      fetch forbiddenReposNet decodeRepos (reposURL "octocat") [] = some (repos, rerr) ∧
      searchGithub forbiddenReposNet "octocat" =
        some (Msg.CombinedData
          { User := { Login := "octocat", Name := "", Bio := "", Location := "",
                      PublicRepos := 0, Followers := 10000 },
            Repos := repos }) ∧
      repos = [] :=
  ⟨by decide, by decide, by decide,
   (C12_repo_failure_is_swallowed forbiddenReposNet "octocat"
      { Login := "octocat", Name := "", Bio := "", Location := "",
        PublicRepos := 0, Followers := 10000 } (by decide)).elim
     (fun repos h => h.elim (fun rerr h =>
       ⟨repos, rerr, h.1, h.2.1, h.2.2.2.1 (fun elems hn => by
          have hf : forbiddenReposNet (reposURL "octocat") = .response 403 none := by
            simp [forbiddenReposNet, reposURL]
          rw [hf] at hn
          cases hn)⟩))⟩

/-! ## C13: window resize -/

/-- C13: in every model state a `WindowSizeMsg` of width `w` sets the stored
width to `w` and changes nothing else: loading, err, data and the text input
(hence the buffer) are as before, and no command is emitted, so no query. -/
theorem C13_resize_sets_width_only (m : model) (w h : Int) :
    m.Update (.WindowSizeMsg w h) = ({ m with width := w }, none) ∧
    (m.Update (.WindowSizeMsg w h)).1.width = w ∧
    (m.Update (.WindowSizeMsg w h)).1.loading = m.loading ∧
    (m.Update (.WindowSizeMsg w h)).1.err = m.err ∧
    (m.Update (.WindowSizeMsg w h)).1.data = m.data ∧
    (m.Update (.WindowSizeMsg w h)).1.input = m.input ∧
    (m.Update (.WindowSizeMsg w h)).1.input.Value = m.input.Value ∧
    (m.Update (.WindowSizeMsg w h)).2 = none := by
  have hu : m.Update (.WindowSizeMsg w h) = ({ m with width := w }, none) := by
    simp only [model.Update, model.textInputHandling, textinput_update_windowSize]
    split <;> rfl
  rw [hu]
  exact ⟨rfl, rfl, rfl, rfl, rfl, rfl, rfl, rfl⟩

/-! ## C14: keys in Error state -/

/-- C14, as stated, fails: in the Error state reached by typing `octocat`, the
confirm key and a failure, the character key `x` is forwarded to the text
input and the buffer changes from `octocat` to `octocatx`, with no reset in
between. -/
theorem C14_counterexample :
    (run initialModel (typed "octocat" ++ [enter, .error ⟨"API error: 404"⟩])).isError ∧
    (KeyMsg.KeyRunes 'x').String ≠ "enter" ∧
    (KeyMsg.KeyRunes 'x').String ≠ "ctrl+c" ∧
    (run initialModel (typed "octocat" ++ [enter, .error ⟨"API error: 404"⟩])).input.Value
      = "octocat" ∧
    ((run initialModel (typed "octocat" ++ [enter, .error ⟨"API error: 404"⟩])).Update
      (.KeyMsg (.KeyRunes 'x'))).1.input.Value = "octocatx" := by
  decide

/-- C14, amended: in an Error state a key other than `enter` and `ctrl+c`
leaves the model in Error state (err, loading, data and width as before), but
it is forwarded to the text input: the new input is the text input updated
with the key and the command is the one the text input returns, so the buffer
can change without a reset. -/
theorem C14_keys_in_error_reach_the_input (m : model) (k : KeyMsg) (h : m.isError)
    (h1 : k.String ≠ "enter") (h2 : k.String ≠ "ctrl+c") :
    (m.Update (.KeyMsg k)).1.isError ∧
    (m.Update (.KeyMsg k)).1.err = m.err ∧
    (m.Update (.KeyMsg k)).1.width = m.width ∧
    (m.Update (.KeyMsg k)).1.input = (m.input.Update (.KeyMsg k)).1 ∧
    (m.Update (.KeyMsg k)).2 = (m.input.Update (.KeyMsg k)).2.map Cmd.textinput := by
  obtain ⟨he, hl, hd⟩ := h
  rw [update_key_other m k h1 h2]
  obtain ⟨f1, f2, f3, f4⟩ := textInputHandling_fields m (.KeyMsg k)
  refine ⟨⟨by rw [f3]; exact he, f1.trans hl, f2.trans hd⟩, f3, f4, ?_, ?_⟩
  · simp [model.textInputHandling, hd]
  · simp [model.textInputHandling, hd]

/-- Witness of C14 amended: the key `x` in the Error state reached by typing
`octocat`, the confirm key and a failure. -/
theorem C14_keys_in_error_reach_the_input_witness :
    (run initialModel (typed "octocat" ++ [enter, .error ⟨"API error: 404"⟩])).isError ∧
    ((run initialModel (typed "octocat" ++ [enter, .error ⟨"API error: 404"⟩])).Update
      (.KeyMsg (.KeyRunes 'x'))).1.isError ∧
    ((run initialModel (typed "octocat" ++ [enter, .error ⟨"API error: 404"⟩])).Update
      (.KeyMsg (.KeyRunes 'x'))).1.input =
      ((run initialModel (typed "octocat" ++ [enter, .error ⟨"API error: 404"⟩])).input.Update
        (.KeyMsg (.KeyRunes 'x'))).1 :=
  ⟨by decide,
   (C14_keys_in_error_reach_the_input
      (run initialModel (typed "octocat" ++ [enter, .error ⟨"API error: 404"⟩]))
      (.KeyRunes 'x') (by decide) (by decide) (by decide)).1,
   (C14_keys_in_error_reach_the_input
      (run initialModel (typed "octocat" ++ [enter, .error ⟨"API error: 404"⟩]))
      (.KeyRunes 'x') (by decide) (by decide) (by decide)).2.2.2.1⟩

/-! ## C15 and C16: the parts of the result render -/

theorem foldl_blocks_init (f : Repo → String) :
    ∀ (l : List Repo) (b : String),
      l.foldl (fun b r => b ++ f r) b = b ++ l.foldl (fun b r => b ++ f r) "" := by
  intro l
  induction l with
  | nil => intro b; simp
  | cons r rest ih =>
    intro b
    simp only [List.foldl_cons]
    rw [ih (b ++ f r), ih ("" ++ f r), String.empty_append, String.append_assoc]

theorem reposBlocks_split (S : Styles) (w : Int) (l1 l2 : List Repo) (r : Repo) :
    reposBlocks S w (l1 ++ r :: l2) =
      reposBlocks S w l1 ++ repoBlock S w r ++ reposBlocks S w l2 := by
  unfold reposBlocks
  rw [List.foldl_append, List.foldl_cons, foldl_blocks_init (repoBlock S w) l2]

theorem resultView_eq (S : Styles) (w : Int) (d : CombinedData) :
    resultView S w d = resultHead S w d ++ reposBlocks S w d.Repos ++ footer S := by
  unfold resultView resultHead reposBlocks footer profileHead statsLine bioBlock reposHeader
  dsimp only
  rw [foldl_blocks_init (repoBlock S w) d.Repos]
  by_cases hb : d.User.Bio = "" <;> by_cases hloc : d.User.Location = "" <;>
    simp [hb, hloc, String.append_assoc]

theorem view_of_result (S : Styles) (m : model) (d : CombinedData) (hl : m.loading = false)
    (he : m.err = none) (hd : m.data = some d) : m.View S = resultView S m.width d := by
  simp [model.View, hl, he, hd]

/-- C15: in the Result render, for every repository `r` of the data (after the
repositories `l1`, before `l2`), the block of `r` follows the blocks of `l1`
and is the name-and-stars line followed by the description line: when the
description of `r` is empty that line is the placeholder `No description.`
rendered by `descStyle` at width minus 4, and when it is not empty it is the
description so rendered, with no placeholder. -/
theorem C15_description_or_placeholder (S : Styles) (m : model) (d : CombinedData)
    (l1 l2 : List Repo) (r : Repo) (hl : m.loading = false) (he : m.err = none)
    (hd : m.data = some d) (hrepos : d.Repos = l1 ++ r :: l2) :
    (r.Description = "" →
      m.View S = resultHead S m.width d ++ reposBlocks S m.width l1 ++
        (S.repoStyle.Render (r.Name ++ " (★ " ++ toString r.Stars ++ ")") ++ "\n" ++
          (S.descStyle.Width (m.width - 4)).Render "No description." ++ "\n\n") ++
        reposBlocks S m.width l2 ++ footer S) ∧
    (r.Description ≠ "" →
      m.View S = resultHead S m.width d ++ reposBlocks S m.width l1 ++
        (S.repoStyle.Render (r.Name ++ " (★ " ++ toString r.Stars ++ ")") ++ "\n" ++
          (S.descStyle.Width (m.width - 4)).Render r.Description ++ "\n\n") ++
        reposBlocks S m.width l2 ++ footer S) := by
  have hv : m.View S = resultHead S m.width d ++ reposBlocks S m.width l1 ++
      repoBlock S m.width r ++ reposBlocks S m.width l2 ++ footer S := by
    rw [view_of_result S m d hl he hd, resultView_eq, hrepos, reposBlocks_split]
    simp only [String.append_assoc]
  constructor
  · intro hdesc
    rw [hv]
    simp [repoBlock, hdesc, String.append_assoc]
  · intro hdesc
    rw [hv]
    simp [repoBlock, hdesc, String.append_assoc]

/-- Witness of C15: the render of a profile with two repositories, the first
without description, the second with the description `Fork me`. -/
theorem C15_description_or_placeholder_witness :
    (roundTrip "octocat" bioFixture).View plain =
      "\nUSER PROFILE\nName: The Octocat\nGithub: @octocat\n" ++
      "Stats: 8 Repos, 10000 Followers\nBio:\nMascot\n" ++
      "\nLATEST REPOSITORIES\nHello-World (★ 1)\nNo description.\n\n" ++
      "Spoon-Knife (★ 2)\nFork me\n\n(Enter to search again, Ctrl+C to quit)" ∧
    (roundTrip "octocat" bioFixture).View plain =
      resultHead plain 80 bioFixture ++ reposBlocks plain 80 [] ++
        ("Hello-World (★ 1)" ++ "\n" ++ "No description." ++ "\n\n") ++
        reposBlocks plain 80 [{ Name := "Spoon-Knife", Description := "Fork me", Stars := 2 }] ++
        footer plain ∧
    (roundTrip "octocat" bioFixture).View plain =
      resultHead plain 80 bioFixture ++
        reposBlocks plain 80 [{ Name := "Hello-World", Description := "", Stars := 1 }] ++
        ("Spoon-Knife (★ 2)" ++ "\n" ++ "Fork me" ++ "\n\n") ++
        reposBlocks plain 80 [] ++ footer plain :=
  ⟨by rfl,
   (C15_description_or_placeholder plain (roundTrip "octocat" bioFixture) bioFixture []
      [{ Name := "Spoon-Knife", Description := "Fork me", Stars := 2 }]
      { Name := "Hello-World", Description := "", Stars := 1 }
      (by decide) (by decide) (by decide) (by decide)).1 (by decide),
   (C15_description_or_placeholder plain (roundTrip "octocat" bioFixture) bioFixture
      [{ Name := "Hello-World", Description := "", Stars := 1 }] []
      { Name := "Spoon-Knife", Description := "Fork me", Stars := 2 }
      (by decide) (by decide) (by decide) (by decide)).2 (by decide)⟩

/-- C16: in the Result render, when the bio is empty the bio block is omitted
entirely: the stats line is followed directly by the repository block, with no
`Bio:` label line and no bio line between them; when the bio is not empty the
stats line is followed by the `Bio:` label line and the bio text rendered at
width minus 4, and then by the repository block. -/
theorem C16_bio_block_only_with_bio (S : Styles) (m : model) (d : CombinedData)
    (hl : m.loading = false) (he : m.err = none) (hd : m.data = some d) :
    (d.User.Bio = "" →
      m.View S = profileHead S d ++ statsLine S d ++
        reposHeader S ++ reposBlocks S m.width d.Repos ++ footer S) ∧
    (d.User.Bio ≠ "" →
      m.View S = profileHead S d ++ statsLine S d ++
        (S.subStyle.Render "Bio:" ++ "\n" ++
          (S.NewStyle.Width (m.width - 4)).Render d.User.Bio ++ "\n") ++
        reposHeader S ++ reposBlocks S m.width d.Repos ++ footer S) := by
  rw [view_of_result S m d hl he hd, resultView_eq]
  constructor
  · intro hb
    simp [resultHead, hb, String.append_assoc]
  · intro hb
    simp [resultHead, bioBlock, hb, String.append_assoc]

/-- Witness of C16: the render of the fixture, whose bio is empty, and of a
profile with the bio `Mascot`. -/
theorem C16_bio_block_only_with_bio_witness :
    (roundTrip "octocat" fixture).View plain =
      "\nUSER PROFILE\nName: The Octocat\nGithub: @octocat\n" ++
      "Stats: 8 Repos, 10000 Followers\n" ++
      "\nLATEST REPOSITORIES\nHello-World (★ 1)\nNo description.\n\n" ++
      "(Enter to search again, Ctrl+C to quit)" ∧
    (roundTrip "octocat" fixture).View plain =
      profileHead plain fixture ++ statsLine plain fixture ++
        reposHeader plain ++ reposBlocks plain 80 fixture.Repos ++ footer plain ∧
    (roundTrip "octocat" bioFixture).View plain =
      profileHead plain bioFixture ++ statsLine plain bioFixture ++
        ("Bio:" ++ "\n" ++ "Mascot" ++ "\n") ++
        reposHeader plain ++ reposBlocks plain 80 bioFixture.Repos ++ footer plain :=
  ⟨by rfl,
   (C16_bio_block_only_with_bio plain (roundTrip "octocat" fixture) fixture
      (by decide) (by decide) (by decide)).1 (by decide),
   (C16_bio_block_only_with_bio plain (roundTrip "octocat" bioFixture) bioFixture
      (by decide) (by decide) (by decide)).2 (by decide)⟩

/-! ## C17: a stray completion -/

theorem update_combinedData (m : model) (d : CombinedData) :
    m.Update (.CombinedData d) = ({ m with loading := false, data := some d }, none) := by
  simp [model.Update, model.textInputHandling]

/-- C17, as stated, fails: the Error state reached from `initialModel` by the
confirm key and a failure is reachable and not Loading, and after the
completion message carrying the fixture `View` is still the error view, not
the result block of the fixture: the data is stored but `err` is kept. -/
theorem C17_counterexample :
    Reachable (run initialModel [enter, .error ⟨"API error: 404"⟩]) ∧
    (run initialModel [enter, .error ⟨"API error: 404"⟩]).isError ∧
    ((run initialModel [enter, .error ⟨"API error: 404"⟩]).Update
      (.CombinedData fixture)).1.data = some fixture ∧
    ((run initialModel [enter, .error ⟨"API error: 404"⟩]).Update
      (.CombinedData fixture)).1.err = some ⟨"API error: 404"⟩ ∧
    ((run initialModel [enter, .error ⟨"API error: 404"⟩]).Update
      (.CombinedData fixture)).1.View plain = "\nAPI error: 404\n(Enter to try again)\n" ∧
    ((run initialModel [enter, .error ⟨"API error: 404"⟩]).Update
      (.CombinedData fixture)).1.View plain ≠ resultView plain 80 fixture := by
  have hv : ((run initialModel [enter, .error ⟨"API error: 404"⟩]).Update
      (.CombinedData fixture)).1.View plain = "\nAPI error: 404\n(Enter to try again)\n" := by
    rfl
  have hr : resultView plain 80 fixture =
      "\nUSER PROFILE\nName: The Octocat\nGithub: @octocat\nStats: 8 Repos, 10000 Followers\n" ++
      "\nLATEST REPOSITORIES\nHello-World (★ 1)\nNo description.\n\n" ++
      "(Enter to search again, Ctrl+C to quit)" := by
    rfl
  refine ⟨⟨_, rfl⟩, by decide, by decide, by decide, hv, ?_⟩
  rw [hv, hr]
  decide

/-- C17, amended: for every state with no error (Input or Result, or Loading)
and every `CombinedData` `d`, the completion message `d` overwrites the state
to Result carrying `d` (not loading, `data = d`, no error, input and width as
before, no command) and `View` renders the result block of `d`.  In a state
with an error `e` the completion stores `d` as well but keeps `err`, and
`View` is still the error view of `e`. -/
theorem C17_stray_completion_overwrites (S : Styles) (m : model) (d : CombinedData)
    (he : m.err = none) :
    m.Update (.CombinedData d) = ({ m with loading := false, data := some d }, none) ∧
    (m.Update (.CombinedData d)).1.isResult ∧
    (m.Update (.CombinedData d)).1.data = some d ∧
    (m.Update (.CombinedData d)).1.View S = resultView S m.width d ∧
    ∀ (m0 : model) (e : GoError), m0.err = some e →
      (m0.Update (.CombinedData d)).1.data = some d ∧
      (m0.Update (.CombinedData d)).1.err = some e ∧
      (m0.Update (.CombinedData d)).1.View S =
        "\n" ++ S.errStyle.Render e.Error ++ "\n(Enter to try again)\n" := by
  refine ⟨update_combinedData m d, ?_, ?_, ?_, ?_⟩
  · rw [update_combinedData]
    exact ⟨by simp, rfl, he⟩
  · rw [update_combinedData]
  · rw [update_combinedData]
    simp [model.View, he]
  · intro m0 e h0
    rw [update_combinedData]
    exact ⟨rfl, h0, by simp [model.View, h0]⟩

/-- Witness of C17 amended: a completion arriving in the Input state
`initialModel`. -/
theorem C17_stray_completion_overwrites_witness :
    initialModel.err = none ∧ initialModel.loading = false ∧
    (initialModel.Update (.CombinedData fixture)).1.isResult ∧
    (initialModel.Update (.CombinedData fixture)).1.View plain = resultView plain 80 fixture :=
  ⟨by decide, by decide,
   (C17_stray_completion_overwrites plain initialModel fixture (by decide)).2.1,
   (C17_stray_completion_overwrites plain initialModel fixture (by decide)).2.2.2.1⟩

/-! ## C18: the Loading render -/

theorem keys_keep_isLoading (ks : List KeyMsg) :
    ∀ m : model, m.isLoading → (run m (ks.map Msg.KeyMsg)).isLoading := by
  induction ks with
  | nil => intro m hm; simpa [run] using hm
  | cons k rest ih =>
    intro m hm
    have hstep : (m.Update (.KeyMsg k)).1.isLoading := by
      by_cases hq : k.String = "ctrl+c"
      · simpa [model.Update, hq] using hm
      · by_cases he : k.String = "enter"
        · have hk := keyString_eq_enter k he
          subst hk
          have hu := update_enter_of_data_none m hm.2.2
          simp only [enter] at hu
          rw [hu]
          exact ⟨rfl, rfl, hm.2.2⟩
        · rw [update_key_other m k he hq]
          obtain ⟨f1, f2, f3, _⟩ := textInputHandling_fields m (.KeyMsg k)
          exact ⟨f1.trans hm.1, f3.trans hm.2.1, f2.trans hm.2.2⟩
    have := ih _ hstep
    simpa [run] using this

/-- C18, as stated, fails: after `octocat` and the confirm key the command is
`searchGithub("octocat")`, and after the key `x`, delivered before the
completion, `View` returns `Searching for octocatx...`, not
`Searching for octocat...`. -/
theorem C18_counterexample :
    ((run initialModel (typed "octocat")).Update enter).2 =
      some (Cmd.searchGithub "octocat") ∧
    (KeyMsg.KeyRunes 'x').String ≠ "ctrl+c" ∧
    (run initialModel (typed "octocat" ++ [enter, .KeyMsg (.KeyRunes 'x')])).View plain =
      "\nSearching for octocatx...\n" ∧
    (run initialModel (typed "octocat" ++ [enter, .KeyMsg (.KeyRunes 'x')])).View plain ≠
      "\nSearching for octocat...\n" := by
  decide

/-- C18, amended: the Loading render names the buffer as it is when rendered.
Right after the confirm key that emits `searchGithub(b)` from an Input state
with buffer `b`, `View` returns `Searching for b...`; after any key events
delivered to a Loading state the model is still Loading and `View` returns
`Searching for ` followed by the current buffer, which those keys may have
edited. -/
theorem C18_loading_render_names_live_buffer (S : Styles) (m : model) (ks : List KeyMsg)
    (h : m.isInput) :
    (m.Update enter).2 = some (Cmd.searchGithub m.input.Value) ∧
    (m.Update enter).1.View S = "\nSearching for " ++ m.input.Value ++ "...\n" ∧
    (run (m.Update enter).1 (ks.map Msg.KeyMsg)).isLoading ∧
    (run (m.Update enter).1 (ks.map Msg.KeyMsg)).View S =
      "\nSearching for " ++ (run (m.Update enter).1 (ks.map Msg.KeyMsg)).input.Value ++
        "...\n" := by
  obtain ⟨hl, he, hd⟩ := h
  have hload : (m.Update enter).1.isLoading := by
    rw [update_enter_of_data_none m hd]
    exact ⟨rfl, rfl, hd⟩
  have hk := keys_keep_isLoading ks _ hload
  refine ⟨by rw [update_enter_of_data_none m hd], ?_, hk, ?_⟩
  · rw [update_enter_of_data_none m hd]
    simp [model.View]
  · simp [model.View, hk.1]

/-- Witness of C18 amended: `octocat` typed, the confirm key, then the keys
`x` and backspace. -/
theorem C18_loading_render_names_live_buffer_witness :
    (run initialModel (typed "octocat")).isInput ∧
    ((run initialModel (typed "octocat")).Update enter).1.View plain =
      "\nSearching for octocat...\n" ∧
    (run ((run initialModel (typed "octocat")).Update enter).1
      ([KeyMsg.KeyRunes 'x', KeyMsg.KeyBackspace].map Msg.KeyMsg)).isLoading :=
  ⟨by decide,
   (C18_loading_render_names_live_buffer plain (run initialModel (typed "octocat"))
      [] (by decide)).2.1,
   (C18_loading_render_names_live_buffer plain (run initialModel (typed "octocat"))
      [KeyMsg.KeyRunes 'x', KeyMsg.KeyBackspace] (by decide)).2.2.1⟩

/-! ## C19: keys in Result state -/

/-- C19: for every model with data present and every key message other than
`enter` and `ctrl+c`, `Update` returns the model unchanged (same buffer, data,
loading, err and width) and emits no command. -/
theorem C19_keys_in_result_are_ignored (m : model) (k : KeyMsg) (hd : m.data ≠ none)
    (h1 : k.String ≠ "enter") (h2 : k.String ≠ "ctrl+c") :
    m.Update (.KeyMsg k) = (m, none) := by
  rw [update_key_other m k h1 h2]
  simp [model.textInputHandling, hd]

/-- Witness of C19: the key `x` in the Result state reached by typing
`octocat`, the confirm key and the completion carrying the fixture. -/
theorem C19_keys_in_result_are_ignored_witness :
    (run initialModel (typed "octocat" ++ [enter, .CombinedData fixture])).data ≠ none ∧
    (run initialModel (typed "octocat" ++ [enter, .CombinedData fixture])).Update
      (.KeyMsg (.KeyRunes 'x')) =
      (run initialModel (typed "octocat" ++ [enter, .CombinedData fixture]), none) :=
  ⟨by decide,
   C19_keys_in_result_are_ignored
     (run initialModel (typed "octocat" ++ [enter, .CombinedData fixture]))
     (.KeyRunes 'x') (by decide) (by decide) (by decide)⟩

/-! ## C20: the flags of a reachable state -/

/-- C20: in every state reachable from `initialModel` by a finite sequence of
messages (keys, resizes, completions and errors in any order), loading implies
no error and no data; data together with an error is not excluded, it is
reached by the confirm key, a failure and a completion. -/
theorem C20_loading_excludes_error_and_data (m : model) (hr : Reachable m)
    (hl : m.loading = true) :
    m.err = none ∧ m.data = none ∧
    ∃ m0 : model, Reachable m0 ∧ m0.data ≠ none ∧ m0.err ≠ none := by
  obtain ⟨he, hd⟩ := reachable_loading_clean m hr hl
  exact ⟨he, hd, run initialModel [enter, .error ⟨"API error: 404"⟩, .CombinedData fixture],
    ⟨_, rfl⟩, by decide, by decide⟩

/-- Witness of C20: the Loading state reached by typing `octocat`, the confirm
key, a failure and the confirm key again. -/
theorem C20_loading_excludes_error_and_data_witness :
    Reachable (run initialModel
      (typed "octocat" ++ [enter, .error ⟨"API error: 404"⟩, enter])) ∧
    (run initialModel
      (typed "octocat" ++ [enter, .error ⟨"API error: 404"⟩, enter])).loading = true ∧
    (run initialModel
      (typed "octocat" ++ [enter, .error ⟨"API error: 404"⟩, enter])).err = none ∧
    (run initialModel
      (typed "octocat" ++ [enter, .error ⟨"API error: 404"⟩, enter])).data = none :=
  ⟨⟨_, rfl⟩, by decide,
   (C20_loading_excludes_error_and_data _ ⟨_, rfl⟩ (by decide)).1,
   (C20_loading_excludes_error_and_data
      (run initialModel (typed "octocat" ++ [enter, .error ⟨"API error: 404"⟩, enter]))
      ⟨_, rfl⟩ (by decide)).2.1⟩

end GithubLookup
